import Mathlib

/-!
Shallow embedding of the retrieval-and-answering pipeline of the `LLM_baja`
repository (Python, `src/app/services/`), together with theorems settling the
frozen claims about it.

Modelling conventions:
* Python `str` values are modelled as `List Char` (abbreviated `Str`); the
  text manipulated by the repository is ASCII policy text, so ASCII semantics
  of `lower`/`title`/whitespace are used.
* Python floats (similarity scores, amounts) are modelled as exact rationals.
* External libraries (the tiktoken tokenizer, the Gemini client, Pinecone,
  hashlib) are not repository code; they are modelled as explicit parameters
  of the functions that call them.
-/

namespace LLMBaja

/-- Python `str` modelled as a list of characters. -/
abbrev Str := List Char

/-- Whitespace characters recognised by Python `str.split()` / `str.strip()`
and by the regex class `\s` (ASCII range). -/
def isWS (c : Char) : Bool :=
  c = ' ' || c = '\t' || c = '\n' || c = '\r' || c = '\x0b' || c = '\x0c'

/-- ASCII decimal digit, the regex class `\d`. -/
def isDigitCh (c : Char) : Bool := '0' ≤ c && c ≤ '9'

/-- ASCII letter, the regex class `[a-zA-Z]`. -/
def isAlphaCh (c : Char) : Bool := ('a' ≤ c && c ≤ 'z') || ('A' ≤ c && c ≤ 'Z')

/-- ASCII lowercase letter, the regex class `[a-z]`. -/
def isLowerCh (c : Char) : Bool := 'a' ≤ c && c ≤ 'z'

/-- Regex word character `\w` = `[a-zA-Z0-9_]`. -/
def isWordCh (c : Char) : Bool := isAlphaCh c || isDigitCh c || c = '_'

/-- Python `str.lower()` (ASCII range). -/
def lower (s : Str) : Str := s.map Char.toLower

/-- Python substring test `needle in hay` (contiguous substring; the empty
needle is contained in everything, as in Python). -/
def isSub (needle hay : Str) : Bool :=
  needle.isPrefixOf hay ||
    match hay with
    | [] => false
    | _ :: t => isSub needle t

/-!
## `GeneralDocumentAnalyzer._identify_document_type`
(src/app/services/general_analyzer.py)
-/

/-- The fixed `document_types` table of `GeneralDocumentAnalyzer.__init__`
(general_analyzer.py lines 13-22), in Python dict insertion order. -/
def documentTypes : List (Str × List Str) :=
  [("insurance_policy".data,
     ["policy".data, "premium".data, "coverage".data, "claim".data,
      "insured".data, "deductible".data]),
   ("contract".data,
     ["agreement".data, "party".data, "terms".data, "conditions".data,
      "obligations".data, "breach".data]),
   ("manual".data,
     ["instructions".data, "procedure".data, "step".data, "guide".data,
      "how to".data, "manual".data]),
   ("report".data,
     ["findings".data, "analysis".data, "results".data, "conclusion".data,
      "summary".data, "data".data]),
   ("legal".data,
     ["shall".data, "whereas".data, "therefore".data, "pursuant".data,
      "covenant".data, "liability".data]),
   ("medical".data,
     ["patient".data, "treatment".data, "diagnosis".data, "symptoms".data,
      "medication".data, "prescription".data]),
   ("financial".data,
     ["revenue".data, "profit".data, "loss".data, "investment".data,
      "financial".data, "budget".data]),
   ("technical".data,
     ["specification".data, "technical".data, "system".data,
      "configuration".data, "requirements".data])]

/-- Keyword score of one type: `sum(1 for keyword in keywords if keyword in
text_lower)` from `_identify_document_type`. -/
def typeScore (textLower : Str) (keywords : List Str) : Nat :=
  (keywords.filter (fun k => isSub k textLower)).length

/-- Python `max(items, key=lambda x: x[1])` over a list: the first item whose
second component is maximal (later items replace the best only when strictly
greater); `none` on the empty list, where Python raises. -/
def maxBySecond : List (Str × Nat) → Option (Str × Nat)
  | [] => none
  | x :: xs => some (xs.foldl (fun best y => if y.2 > best.2 then y else best) x)

/-- `GeneralDocumentAnalyzer._identify_document_type` (general_analyzer.py
lines 93-105): score every type of `documentTypes` against the lowered text,
keep the positive scores, return the max-scoring type (Python `max` keeps the
first maximum, i.e. table order breaks ties), defaulting to
`"general_document"`. -/
def identifyDocumentType (documentText : Str) : Str :=
  let textLower := lower documentText
  let typeScores :=
    (documentTypes.map (fun p => (p.1, typeScore textLower p.2))).filter
      (fun p => p.2 > 0)
  match maxBySecond typeScores with
  | some best => best.1
  | none => "general_document".data

/-- The largest second component in a list (0 for the empty list). -/
def listMax2 : List (Str × Nat) → Nat
  | [] => 0
  | p :: l => max p.2 (listMax2 l)

/-- The score row computed by `_identify_document_type`: every type of the
fixed table paired with the number of its keywords found in the lowered
document text. -/
def docTypeScores (documentText : Str) : List (Str × Nat) :=
  documentTypes.map (fun p => (p.1, typeScore (lower documentText) p.2))

/-!
## Data model (app/models.py) and `SemanticSearch._rerank_by_entities`
(src/app/services/semantic_search.py)
-/

/-- `DocumentChunk` (models.py lines 46-52).  The open `metadata` map is
modelled as an association list of strings. -/
structure DocumentChunk where
  chunk_id : Str
  document_name : Str
  chunk_text : Str
  chunk_index : Int
  page_number : Option Int := none
  metadata : List (Str × Str) := []
deriving DecidableEq

/-- `SearchResult` (models.py lines 54-56); the float similarity score is
modelled as an exact rational. -/
structure SearchResult where
  chunk : DocumentChunk
  similarity_score : ℚ
deriving DecidableEq

/-- `EntityExtraction` (models.py lines 20-28): all fields independently
optional. -/
structure EntityExtraction where
  age : Option Int := none
  gender : Option Str := none
  procedure : Option Str := none
  location : Option Str := none
  policy_duration : Option Str := none
  policy_type : Option Str := none
  amount : Option ℚ := none
  date : Option Str := none
deriving DecidableEq

/-- Python `str(n)` for an integer. -/
def pyStrInt (n : Int) : Str := (toString n).data

/-- First `if` block of `_rerank_by_entities` (lines 99-101): `+0.1` when
`entities.procedure` is truthy (not `None`, not `""`) and its lowering
occurs in the lowered chunk text. -/
def procBonus (entities : EntityExtraction) (chunkTextLower : Str) (b : ℚ) : ℚ :=
  match entities.procedure with
  | some p => if !p.isEmpty && isSub (lower p) chunkTextLower then b + 1/10 else b
  | none => b

/-- Second `if` block (lines 103-105): `+0.05` for a truthy location found
in the chunk text. -/
def locBonus (entities : EntityExtraction) (chunkTextLower : Str) (b : ℚ) : ℚ :=
  match entities.location with
  | some loc => if !loc.isEmpty && isSub (lower loc) chunkTextLower then b + 1/20 else b
  | none => b

/-- Third `if` block (lines 107-111): `+0.05` when `entities.age` is truthy
(Python `if entities.age:` is false for `None` and for `0`) and one of
`["age", "years", "old", str(age)]` occurs. -/
def ageBonus (entities : EntityExtraction) (chunkTextLower : Str) (b : ℚ) : ℚ :=
  match entities.age with
  | some a =>
      if decide (a ≠ 0) &&
          ["age".data, "years".data, "old".data, pyStrInt a].any
            (fun t => isSub t chunkTextLower) then b + 1/20 else b
  | none => b

/-- Fourth `if` block (lines 113-117): `+0.05` for a truthy policy duration
when a duration term occurs. -/
def durBonus (entities : EntityExtraction) (chunkTextLower : Str) (b : ℚ) : ℚ :=
  match entities.policy_duration with
  | some d =>
      if !d.isEmpty &&
          ["month".data, "year".data, "waiting".data, "period".data].any
            (fun t => isSub t chunkTextLower) then b + 1/20 else b
  | none => b

/-- The score bonus accumulated for one result by `_rerank_by_entities`
(semantic_search.py lines 95-117): the four sequential `if` blocks applied
in program order starting from `bonus_score = 0`. -/
def bonusScore (entities : EntityExtraction) (chunkTextLower : Str) : ℚ :=
  durBonus entities chunkTextLower
    (ageBonus entities chunkTextLower
      (locBonus entities chunkTextLower
        (procBonus entities chunkTextLower 0)))

/-- The per-result update of `_rerank_by_entities` (line 120):
`result.similarity_score = min(1.0, result.similarity_score + bonus_score)`. -/
def boostResult (entities : EntityExtraction) (r : SearchResult) : SearchResult :=
  { r with
      similarity_score := min 1 (r.similarity_score + bonusScore entities (lower r.chunk.chunk_text)) }

/-- Descending order on similarity scores, the sort key of
`results.sort(key=lambda x: x.similarity_score, reverse=True)`. -/
def byScoreDesc (a b : SearchResult) : Prop :=
  b.similarity_score ≤ a.similarity_score

instance : DecidableRel byScoreDesc := fun a b =>
  inferInstanceAs (Decidable (b.similarity_score ≤ a.similarity_score))

instance : IsTotal SearchResult byScoreDesc :=
  ⟨fun a b => le_total b.similarity_score a.similarity_score⟩

instance : IsTrans SearchResult byScoreDesc :=
  ⟨fun _ _ _ h1 h2 => le_trans h2 h1⟩

/-- `SemanticSearch._rerank_by_entities` (semantic_search.py lines 93-124):
boost every result's score in place, then stable-sort descending by score.
Python `list.sort` is a stable sort; `List.insertionSort` is a stable sort
for the same total preorder, hence computes the same list. -/
def rerankByEntities (results : List SearchResult)
    (entities : EntityExtraction) : List SearchResult :=
  List.insertionSort byScoreDesc (results.map (boostResult entities))

/-- The tail of `search_with_reranking` (semantic_search.py lines 85-87):
rerank the results returned by the base `search` call (which performs the
network retrieval and is therefore supplied here as input), then truncate to
`top_k`. -/
def searchWithRerankingPost (results : List SearchResult)
    (entities : EntityExtraction) (topK : Nat) : List SearchResult :=
  (rerankByEntities results entities).take topK


/-- Whether the procedure boost of `_rerank_by_entities` fires: the
procedure field is truthy and its lowering occurs in the lowered chunk
text. -/
def procMentioned (entities : EntityExtraction) (chunkTextLower : Str) : Bool :=
  match entities.procedure with
  | some p => !p.isEmpty && isSub (lower p) chunkTextLower
  | none => false

/-- Whether the location boost of `_rerank_by_entities` fires. -/
def locationMentioned (entities : EntityExtraction) (chunkTextLower : Str) : Bool :=
  match entities.location with
  | some loc => !loc.isEmpty && isSub (lower loc) chunkTextLower
  | none => false

/-- Whether the age boost of `_rerank_by_entities` fires: `entities.age` is
truthy (present and nonzero) and one of the age terms occurs. -/
def ageMentioned (entities : EntityExtraction) (chunkTextLower : Str) : Bool :=
  match entities.age with
  | some a =>
      decide (a ≠ 0) &&
        ["age".data, "years".data, "old".data, pyStrInt a].any
          (fun t => isSub t chunkTextLower)
  | none => false

/-- Whether the policy-duration boost of `_rerank_by_entities` fires. -/
def durationMentioned (entities : EntityExtraction) (chunkTextLower : Str) : Bool :=
  match entities.policy_duration with
  | some d =>
      !d.isEmpty &&
        ["month".data, "year".data, "waiting".data, "period".data].any
          (fun t => isSub t chunkTextLower)
  | none => false

/-- Entity record extracted from a query such as "0-year-old ..." : the age
field is present with value 0 (which Python treats as falsy). -/
def ageZeroEntities : EntityExtraction := { age := some 0 }

/-- A stored chunk whose text contains the literal word "age". -/
def ageChunk : DocumentChunk :=
  { chunk_id := "policy.pdf_0_abcd0123".data
    document_name := "policy.pdf".data
    chunk_text := "age".data
    chunk_index := 0 }

/-- A search result for `ageChunk` with base similarity 0. -/
def ageZeroResult : SearchResult := { chunk := ageChunk, similarity_score := 0 }


/-!
## `QueryParser._rule_based_extraction` (src/app/services/query_parser.py)

The four regex searches of `_rule_based_extraction` are translated into
explicit backtracking scanners.  Each scanner enumerates the candidate
consumptions of a regex piece in the order the Python `re` engine tries
them (greedy pieces longest first, alternations in written order) and the
first candidate under which the rest of the pattern succeeds wins, which is
exactly the leftmost backtracking semantics of `re.search`.
-/

/-- Match a literal and return the remaining suffix. -/
def litP (w s : Str) : Option Str :=
  if w.isPrefixOf s then some (s.drop w.length) else none

/-- Candidate remainders of an optional single-character class (greedy:
consuming candidate first). -/
def optClassP (p : Char → Bool) (s : Str) : List Str :=
  match s with
  | c :: rest => if p c then [rest, s] else [s]
  | [] => [s]

/-- The class `[-\s]` used in the age and duration patterns. -/
def isDashWS (c : Char) : Bool := c = '-' || isWS c

/-- Candidate `(capture, rest)` splits for `\d{1,3}` in greedy order. -/
def digitsTake3 (s : Str) : List (Str × Str) :=
  match s with
  | d1 :: t1 =>
      if isDigitCh d1 then
        (match t1 with
         | d2 :: t2 =>
             if isDigitCh d2 then
               (match t2 with
                | d3 :: t3 => if isDigitCh d3 then [([d1, d2, d3], t3)] else []
                | [] => []) ++ [([d1, d2], t2)]
             else []
         | [] => []) ++ [([d1], t1)]
      else []
  | [] => []

/-- Candidate `(capture, rest)` splits for `\d+` in greedy order. -/
def digitsPlus (s : Str) : List (Str × Str) :=
  match s with
  | c :: t =>
      if isDigitCh c then
        ((digitsPlus t).map (fun cr => (c :: cr.1, cr.2))) ++ [([c], t)]
      else []
  | [] => []

/-- Candidate remainders for `\s*` in greedy order (longest run first). -/
def wsStar (s : Str) : List Str :=
  match s with
  | c :: t => if isWS c then wsStar t ++ [s] else [s]
  | [] => [[]]

/-- Candidate remainders for `\s+` in greedy order. -/
def wsPlus (s : Str) : List Str :=
  match s with
  | c :: t => if isWS c then wsStar t else []
  | [] => []

/-- A regex word boundary `\b` between a word character just consumed and
the remainder. -/
def boundaryAfter (s : Str) : Bool :=
  match s with
  | [] => true
  | c :: _ => !isWordCh c

/-- A regex word boundary `\b` before the current position, given the
previously scanned character (`none` at the start of the string). -/
def boundaryBefore (prev : Option Char) : Bool :=
  match prev with
  | none => true
  | some c => !isWordCh c

/-- First alternative of the age pattern,
`(\d{1,3})[-\s]?(year|yr|y)?s?[-\s]?old`: returns the captured digits. -/
def ageAlt1 (s : Str) : Option Str :=
  (digitsTake3 s).findSome? (fun dsr =>
    (optClassP isDashWS dsr.2).findSome? (fun r2 =>
      (((litP ("year".data) r2).toList ++ (litP ("yr".data) r2).toList ++
          (litP ("y".data) r2).toList) ++ [r2]).findSome? (fun r3 =>
        (optClassP (fun c => c = 's') r3).findSome? (fun r4 =>
          (optClassP isDashWS r4).findSome? (fun r5 =>
            (litP ("old".data) r5).map (fun _ => dsr.1))))))

/-- Second alternative of the age pattern, `(\d{1,3})[mf]`. -/
def ageAlt2 (s : Str) : Option Str :=
  (digitsTake3 s).findSome? (fun dsr =>
    match dsr.2 with
    | c :: _ => if c = 'm' || c = 'f' then some dsr.1 else none
    | [] => none)

/-- Third alternative of the age pattern, `\b(\d{1,3})\s*(?:year|yr|y)\b`. -/
def ageAlt3 (prev : Option Char) (s : Str) : Option Str :=
  if boundaryBefore prev then
    (digitsTake3 s).findSome? (fun dsr =>
      (wsStar dsr.2).findSome? (fun r2 =>
        ((litP ("year".data) r2).toList ++ (litP ("yr".data) r2).toList ++
            (litP ("y".data) r2).toList).findSome? (fun r3 =>
          if boundaryAfter r3 then some dsr.1 else none)))
  else none

/-- `re.search` for the age pattern of `_rule_based_extraction` (line 42):
try the three alternatives in order at each position, scanning left to
right.  The returned capture is the digit group of whichever alternative
matched, which is what `next(g for g in groups if g and g.isdigit())`
extracts. -/
def searchAge (prev : Option Char) (s : Str) : Option Str :=
  match ageAlt1 s with
  | some ds => some ds
  | none =>
    match ageAlt2 s with
    | some ds => some ds
    | none =>
      match ageAlt3 prev s with
      | some ds => some ds
      | none =>
        match s with
        | [] => none
        | c :: t => searchAge (some c) t

/-- `re.search(r"\bmale\b|[0-9]+m\b", q)` (line 50). -/
def searchMale (prev : Option Char) (s : Str) : Bool :=
  (boundaryBefore prev &&
      ((litP ("male".data) s).map boundaryAfter).getD false) ||
  ((digitsPlus s).any (fun dsr =>
      ((litP ("m".data) dsr.2).map boundaryAfter).getD false)) ||
  (match s with
   | [] => false
   | c :: t => searchMale (some c) t)

/-- `re.search(r"\bfemale\b|[0-9]+f\b", q)` (line 52). -/
def searchFemale (prev : Option Char) (s : Str) : Bool :=
  (boundaryBefore prev &&
      ((litP ("female".data) s).map boundaryAfter).getD false) ||
  ((digitsPlus s).any (fun dsr =>
      ((litP ("f".data) dsr.2).map boundaryAfter).getD false)) ||
  (match s with
   | [] => false
   | c :: t => searchFemale (some c) t)

/-- The `indian_cities` list (query_parser.py lines 56-64), in order. -/
def indianCities : List Str :=
  ["mumbai".data, "delhi".data, "bangalore".data, "hyderabad".data,
   "chennai".data, "kolkata".data, "pune".data, "ahmedabad".data,
   "jaipur".data, "lucknow".data, "kanpur".data, "nagpur".data,
   "indore".data, "thane".data, "bhopal".data, "visakhapatnam".data,
   "pimpri".data, "patna".data, "vadodara".data, "ghaziabad".data,
   "ludhiana".data, "agra".data, "nashik".data, "faridabad".data,
   "meerut".data, "rajkot".data, "kalyan".data, "vasai".data,
   "varanasi".data, "srinagar".data, "aurangabad".data, "dhanbad".data,
   "amritsar".data, "navi mumbai".data, "allahabad".data, "ranchi".data,
   "howrah".data, "coimbatore".data, "jabalpur".data, "gwalior".data,
   "vijayawada".data]

/-- The `medical_procedures` list (query_parser.py lines 80-85), in order. -/
def medicalProcedures : List Str :=
  ["surgery".data, "operation".data, "procedure".data, "treatment".data,
   "therapy".data, "knee surgery".data, "heart surgery".data,
   "brain surgery".data, "eye surgery".data, "dental".data,
   "orthopedic".data, "cardiac".data, "neurological".data, "oncology".data,
   "chemotherapy".data, "radiation".data, "dialysis".data,
   "transplant".data]

/-- Python `str.title()` (ASCII): a letter after a non-letter is uppercased,
a letter after a letter is lowercased. -/
def pyTitleAux (prevAlpha : Bool) : Str → Str
  | [] => []
  | c :: t =>
      if isAlphaCh c then
        (if prevAlpha then c.toLower else c.toUpper) :: pyTitleAux true t
      else c :: pyTitleAux false t

/-- Python `str.title()`. -/
def pyTitle (s : Str) : Str := pyTitleAux false s

/-- Parse a nonempty digit string to a natural number, Python `int`. -/
def digitsToNat (s : Str) : Nat :=
  s.foldl (fun n c => n * 10 + (c.toNat - ('0').toNat)) 0

/-- Match at one position the duration pattern
`(\d+)[-\s]?(month|mon|year|yr)s?[-\s]?(old\s+)?policy` (line 72),
returning the captured number and unit. -/
def durationAt (s : Str) : Option (Str × Str) :=
  (digitsPlus s).findSome? (fun dsr =>
    (optClassP isDashWS dsr.2).findSome? (fun r2 =>
      (["month".data, "mon".data, "year".data, "yr".data].findSome?
          (fun u => (litP u r2).map (fun r3 => (u, r3)))).bind (fun ur =>
        (optClassP (fun c => c = 's') ur.2).findSome? (fun r4 =>
          (optClassP isDashWS r4).findSome? (fun r5 =>
            ((((litP ("old".data) r5).toList.flatMap wsPlus)) ++ [r5]).findSome?
              (fun r6 =>
                (litP ("policy".data) r6).map (fun _ => (dsr.1, ur.1))))))))

/-- `re.search` for the duration pattern: leftmost match. -/
def searchDuration (s : Str) : Option (Str × Str) :=
  match durationAt s with
  | some r => some r
  | none =>
    match s with
    | [] => none
    | _ :: t => searchDuration t

/-- The normalised duration string built on line 77:
`f"{number} {unit}{chr(115) if int(number) > 1 else chr(0)}"` — the number,
a space, the unit, and a plural `s` when the number exceeds 1. -/
def formatDuration (number unit : Str) : Str :=
  number ++ (' ' :: unit) ++ (if digitsToNat number > 1 then ['s'] else [])

/-- Candidate `(capture, rest)` splits for `(?:,\d{3})*` in greedy order
(most comma groups first). -/
def commaGroups (s : Str) : List (Str × Str) :=
  match s with
  | ',' :: d1 :: d2 :: d3 :: t =>
      if isDigitCh d1 && isDigitCh d2 && isDigitCh d3 then
        ((commaGroups t).map (fun cr => (',' :: d1 :: d2 :: d3 :: cr.1, cr.2)))
          ++ [([], s)]
      else [([], s)]
  | _ => [([], s)]

/-- Candidate `(capture, rest)` splits for `(?:\.\d{2})?` in greedy order. -/
def fracPart (s : Str) : List (Str × Str) :=
  match s with
  | '.' :: a :: b :: t =>
      if isDigitCh a && isDigitCh b then [(['.', a, b], t), ([], s)]
      else [([], s)]
  | _ => [([], s)]

/-- Candidate `(capture, rest)` splits for the amount group
`\d+(?:,\d{3})*(?:\.\d{2})?` in backtracking order. -/
def amountGroup (s : Str) : List (Str × Str) :=
  (digitsPlus s).flatMap (fun dsr =>
    (commaGroups dsr.2).flatMap (fun cg =>
      (fracPart cg.2).map (fun fp =>
        (dsr.1 ++ cg.1 ++ fp.1, fp.2))))

/-- Candidate remainders for the currency marker `(?:rs\.?|inr|₹)` in
alternation order. -/
def currencyPre (s : Str) : List Str :=
  (litP ("rs.".data) s).toList ++ (litP ("rs".data) s).toList ++
    (litP ("inr".data) s).toList ++ (litP ("₹".data) s).toList

/-- Candidate remainders for the trailing currency marker
`(?:rs\.?|inr|₹|rupees?)` in alternation order. -/
def currencyPost (s : Str) : List Str :=
  currencyPre s ++ (litP ("rupees".data) s).toList ++
    (litP ("rupee".data) s).toList

/-- Python `float` of a matched amount with the commas removed: the value
`int_part + frac/100` as an exact rational. -/
def parseAmount (capture : Str) : ℚ :=
  let noComma := capture.filter (fun c => c ≠ ',')
  let intPart := noComma.takeWhile (fun c => c ≠ '.')
  let frac := (noComma.dropWhile (fun c => c ≠ '.')).drop 1
  (digitsToNat intPart : ℚ) + (digitsToNat frac : ℚ) / 100

/-- Match at one position the amount pattern (line 93):
`(?:rs\.?|inr|₹)\s*(amount)|(amount)\s*(?:rs\.?|inr|₹|rupees?)`. -/
def amountAt (s : Str) : Option Str :=
  ((currencyPre s).findSome? (fun r1 =>
    (wsStar r1).findSome? (fun r2 =>
      match amountGroup r2 with
      | g :: _ => some g.1
      | [] => none))).orElse (fun _ =>
    (amountGroup s).findSome? (fun g =>
      (wsStar g.2).findSome? (fun r2 =>
        match currencyPost r2 with
        | _ :: _ => some g.1
        | [] => none)))

/-- `re.search` for the amount pattern: leftmost match, captured amount. -/
def searchAmount (s : Str) : Option Str :=
  match amountAt s with
  | some r => some r
  | none =>
    match s with
    | [] => none
    | _ :: t => searchAmount t

/-- `QueryParser._rule_based_extraction` (query_parser.py lines 36-100):
the five regex/list extractions over the lowered query assembled into an
`EntityExtraction` record (a missing dict key is `none`). -/
def ruleBasedExtraction (query : Str) : EntityExtraction :=
  let ql := lower query
  { age := (searchAge none ql).map (fun ds => (digitsToNat ds : Int))
    gender :=
      if searchMale none ql then some ("male".data)
      else if searchFemale none ql then some ("female".data)
      else none
    location := (indianCities.find? (fun c => isSub c ql)).map pyTitle
    policy_duration := (searchDuration ql).map (fun nu => formatDuration nu.1 nu.2)
    procedure := medicalProcedures.find? (fun p => isSub p ql)
    amount := (searchAmount ql).map parseAmount }

/-- `QueryParser.extract_entities` (query_parser.py lines 18-34) in the
state the claim fixes: the model-assisted pass is unavailable, so
`_llm_based_extraction` catches its failure internally and returns `{}`,
and the merge `{**rule_based, **{}}` is the rule-based result itself. -/
def extractEntitiesNoLLM (query : Str) : EntityExtraction :=
  ruleBasedExtraction query

/-- The example query fixed by the claim. -/
def exampleQuery : Str :=
  "46-year-old male, knee surgery in Pune, 3-month-old policy".data


/-!
## `EmbeddingService` (src/app/services/embeddings.py)

The external Pinecone client is not repository code; a reachable index is
modelled as a record of response functions, each returning `Except Unit`
to model calls that may raise (the service catches every exception).  The
md5-based `generate_embedding` uses hashlib, likewise external, and is a
function parameter of the service state.
-/

/-- The statistics object returned by Pinecone `describe_index_stats`. -/
structure IndexStats where
  total_vector_count : Nat
  dimension : Nat
  index_fullness : ℚ

/-- One match of a Pinecone query response. -/
structure PineconeMatch where
  id : Str
  score : ℚ
  meta_document_name : Str
  meta_chunk_text : Str
  meta_chunk_index : Int
  meta_page_number : Option Int

/-- The metadata stored alongside a vector by `store_chunks`
(embeddings.py lines 94-100). -/
structure VectorMetadata where
  document_name : Str
  chunk_text : Str
  chunk_index : Int
  page_number : Option Int

/-- A vector upserted by `store_chunks` (lines 102-106). -/
structure PineconeVector where
  id : Str
  values : List ℚ
  metadata : VectorMetadata

/-- Filters accepted by `search_similar_chunks`. -/
structure QueryFilter where
  document_name : Option Str := none
  page_number : Option Int := none

/-- A reachable backing index: the behaviour of the external Pinecone index
object for the three calls the service makes.  `Except.error` models a
raised exception. -/
structure PineconeIndex where
  upsert : List PineconeVector → Except Unit Unit
  query : List ℚ → Nat → Option QueryFilter → Except Unit (List PineconeMatch)
  delete : List Str → Except Unit Unit
  describeStats : Except Unit IndexStats

/-- The state of an `EmbeddingService` after `__init__`: `index` is `none`
exactly when Pinecone is not configured or its initialisation failed
(`_init_pinecone`, lines 22-47); `embed` is the hash-based
`generate_embedding`. -/
structure EmbeddingServiceState where
  index : Option PineconeIndex
  embed : Str → List ℚ

/-- `range(0, len(l), n)` batching used by `store_chunks` (batch 100) and
`delete_document` (batch 1000). -/
def batchList {α : Type} (n : Nat) : List α → List (List α)
  | [] => []
  | x :: xs =>
      match n with
      | 0 => [x :: xs]
      | m + 1 =>
          (x :: xs).take (m + 1) :: batchList (m + 1) ((x :: xs).drop (m + 1))
termination_by l => l.length
decreasing_by
  simp only [List.length_drop, List.length_cons]
  omega

/-- Upsert the batches in order, stopping at the first exception
(lines 109-112). -/
def upsertBatches (idx : PineconeIndex) : List (List PineconeVector) → Except Unit Unit
  | [] => Except.ok ()
  | b :: bs =>
      match idx.upsert b with
      | Except.ok _ => upsertBatches idx bs
      | Except.error e => Except.error e

/-- `EmbeddingService.store_chunks` (embeddings.py lines 79-119): `False`
when no index is configured; otherwise embed every chunk, upsert in batches
of 100 and return `True`, or `False` if any call raised. -/
def storeChunks (svc : EmbeddingServiceState) (chunks : List DocumentChunk) : Bool :=
  match svc.index with
  | none => false
  | some idx =>
      let vectors := chunks.map (fun c =>
        PineconeVector.mk c.chunk_id (svc.embed c.chunk_text)
          (VectorMetadata.mk c.document_name (c.chunk_text.take 1000)
            c.chunk_index c.page_number))
      match upsertBatches idx (batchList 100 vectors) with
      | Except.ok _ => true
      | Except.error _ => false

/-- The result dictionaries built by `search_similar_chunks`
(lines 147-155). -/
structure RawSearchResult where
  chunk_id : Str
  similarity_score : ℚ
  meta_document_name : Str
  meta_chunk_index : Int
  meta_page_number : Option Int
  chunk_text : Str

/-- `EmbeddingService.search_similar_chunks` (lines 121-161): the empty
list when no index is configured or when the query raises; otherwise the
formatted matches. -/
def searchSimilarChunks (svc : EmbeddingServiceState) (query : Str)
    (topK : Nat) (filters : Option QueryFilter) : List RawSearchResult :=
  match svc.index with
  | none => []
  | some idx =>
      match idx.query (svc.embed query) topK filters with
      | Except.error _ => []
      | Except.ok ms =>
          ms.map (fun m =>
            RawSearchResult.mk m.id m.score m.meta_document_name
              m.meta_chunk_index m.meta_page_number m.meta_chunk_text)

/-- Delete the id batches in order, stopping at the first exception
(lines 183-186). -/
def deleteBatches (idx : PineconeIndex) : List (List Str) → Except Unit Unit
  | [] => Except.ok ()
  | b :: bs =>
      match idx.delete b with
      | Except.ok _ => deleteBatches idx bs
      | Except.error e => Except.error e

/-- `EmbeddingService.delete_document` (lines 163-194): `False` when no
index is configured; otherwise enumerate the document's chunks with a
dummy-vector query, delete them in batches of 1000 and return `True`,
or `False` if any call raised. -/
def deleteDocument (svc : EmbeddingServiceState) (embeddingDimension : Nat)
    (documentName : Str) : Bool :=
  match svc.index with
  | none => false
  | some idx =>
      match idx.query (List.replicate embeddingDimension 0) 10000
          (some { document_name := some documentName }) with
      | Except.error _ => false
      | Except.ok ms =>
          let ids := ms.map (fun m => m.id)
          if ids.isEmpty then true
          else
            match deleteBatches idx (batchList 1000 ids) with
            | Except.ok _ => true
            | Except.error _ => false

/-- The dictionary returned by `get_index_stats` (lines 196-222). -/
structure StatsDict where
  total_vector_count : Nat
  dimension : Nat
  index_fullness : ℚ
  status : Str

/-- `EmbeddingService.get_index_stats`: status `"not_configured"` without an
index, `"connected"` when `describe_index_stats` answers, `"error"` when it
raises. -/
def getIndexStats (svc : EmbeddingServiceState)
    (embeddingDimension : Nat) : StatsDict :=
  match svc.index with
  | none => StatsDict.mk 0 embeddingDimension 0 ("not_configured".data)
  | some idx =>
      match idx.describeStats with
      | Except.ok st =>
          StatsDict.mk st.total_vector_count st.dimension st.index_fullness
            ("connected".data)
      | Except.error _ => StatsDict.mk 0 embeddingDimension 0 ("error".data)


/-!
## A small regex interpreter

`RuleBasedAnswerer` and `GeneralDocumentAnalyzer` use `re.search` and
`re.findall` over a fixed set of patterns built from literals, character
classes, `|`, greedy `*` `+` `?` and lazy `*?`.  The patterns are
represented as an AST and interpreted with the backtracking order of the
Python engine: alternatives in written order, greedy pieces longest first,
lazy pieces shortest first.  The fuel bounds star unrolling; every star
body in the repository's patterns consumes at least one character, so fuel
`length + 1` never runs out before a match decision is reached.
-/

inductive RE : Type
  | eps : RE
  | cls : (Char → Bool) → RE
  | seq : RE → RE → RE
  | alt : RE → RE → RE
  | star : RE → RE
  | starL : RE → RE

namespace RE

/-- Structural size of a pattern, used to budget the interpreter fuel. -/
def size : RE → Nat
  | .eps => 1
  | .cls _ => 1
  | .seq a b => a.size + b.size + 1
  | .alt a b => a.size + b.size + 1
  | .star r => r.size + 1
  | .starL r => r.size + 1

/-- Backtracking interpreter in continuation style: the continuation
receives the remaining suffix, and the first accepted branch in Python
trial order wins.  The fuel decreases at every step so the recursion is
structural (and hence computes by reduction); `fuelFor` below budgets
enough fuel that it never runs out on the repository's patterns, whose
star bodies all consume at least one character per iteration. -/
def mAux {α : Type} : Nat → RE → Str → (Str → Option α) → Option α
  | 0, _, _, _ => none
  | _ + 1, .eps, s, k => k s
  | _ + 1, .cls p, s, k =>
      (match s with
       | c :: t => if p c then k t else none
       | [] => none)
  | fuel + 1, .seq a b, s, k => mAux fuel a s (fun s2 => mAux fuel b s2 k)
  | fuel + 1, .alt a b, s, k => (mAux fuel a s k) <|> (mAux fuel b s k)
  | fuel + 1, .star r, s, k =>
      (mAux fuel r s (fun s2 => mAux fuel (.star r) s2 k)) <|> k s
  | fuel + 1, .starL r, s, k =>
      k s <|> (mAux fuel r s (fun s2 => mAux fuel (.starL r) s2 k))

/-- Fuel budget: every interpreter step either descends into the pattern
or unrolls a star whose body consumes a character, so this product bounds
the call-chain depth for the patterns interpreted here. -/
def fuelFor (r : RE) (s : Str) : Nat := (s.length + 2) * (r.size + 2)

/-- Match the pattern at the start of `s` (unanchored end), returning the
suffix after the match chosen by the backtracking order. -/
def matchAt (r : RE) (s : Str) : Option Str :=
  mAux (fuelFor r s) r s (fun rest => some rest)

/-- `re.search` as a Bool: does the pattern match at some position? -/
def search (r : RE) : Str → Bool
  | [] => (r.matchAt []).isSome
  | c :: t => (r.matchAt (c :: t)).isSome || search r t

/-- `re.findall` for patterns without groups: the list of matched
substrings, leftmost first, non-overlapping, scanning resumed after each
match.  The fuel is the string length plus one; a successful match of the
repository's patterns always consumes at least one character, so the fuel
never runs out first. -/
def findallAux (r : RE) : Nat → Str → List Str
  | 0, _ => []
  | _ + 1, [] =>
      (match r.matchAt [] with
       | some _ => [[]]
       | none => [])
  | fuel + 1, c :: t =>
      match r.matchAt (c :: t) with
      | some rest =>
          if rest.length < (c :: t).length then
            ((c :: t).take ((c :: t).length - rest.length)) ::
              findallAux r fuel rest
          else [] :: findallAux r fuel t
      | none => findallAux r fuel t

/-- `re.findall`. -/
def findall (r : RE) (s : Str) : List Str := findallAux r (s.length + 1) s

/-- One-character literal. -/
def ch (c : Char) : RE := .cls (fun x => x = c)

/-- Literal word. -/
def lit (w : Str) : RE := w.foldr (fun c r => .seq (ch c) r) .eps

/-- Regex `.` (any character except a newline; no DOTALL flag is used by
the patterns modelled here). -/
def dot : RE := .cls (fun c => c ≠ '\n')

/-- Greedy `?`. -/
def opt (r : RE) : RE := .alt r .eps

/-- Greedy `+`. -/
def plus (r : RE) : RE := .seq r (.star r)

/-- Sequence of pieces. -/
def cat (l : List RE) : RE := l.foldr .seq .eps

/-- Lazy `.*?`. -/
def dotStarL : RE := .starL dot

/-- `\s*`. -/
def wsStarRe : RE := .star (.cls isWS)

/-- `\d+`. -/
def digitsRe : RE := plus (.cls isDigitCh)

end RE


/-!
## `RuleBasedAnswerer` (src/app/services/rule_based_answerer.py)
-/

/-- Shorthand for a literal regex piece. -/
def L (w : String) : RE := RE.lit w.data

/-- Greedy `.*`. -/
def dotStar : RE := RE.star RE.dot

/-- Optional plural `s?`. -/
def sOpt : RE := RE.opt (RE.ch 's')

/-- One entry of the `answer_patterns` dict: the question pattern (the dict
key, a regex), the corroborating content patterns, and the canonical
default answer. -/
structure AnswerPattern where
  questionPattern : RE
  contentPatterns : List RE
  defaultAnswer : Str

/-- The `answer_patterns` table (rule_based_answerer.py lines 9-101), in
dict insertion order, every regex transcribed. -/
def answerPatterns : List AnswerPattern :=
  [ { questionPattern := L ("grace period"),
      contentPatterns :=
        [RE.cat [L ("grace period"), RE.dotStarL, RE.digitsRe, RE.wsStarRe,
           L ("day"), sOpt],
         RE.cat [L ("grace period"), RE.dotStarL, L ("thirty"), RE.wsStarRe,
           L ("(30)"), RE.wsStarRe, L ("day"), sOpt],
         RE.cat [L ("grace period"), RE.dotStarL, L ("thirty day"), sOpt],
         RE.cat [L ("premium"), RE.dotStarL, L ("grace period"), RE.dotStarL,
           RE.digitsRe, RE.wsStarRe, L ("day"), sOpt]],
      defaultAnswer := ("A grace period of thirty days is provided for premium payment after the due date to renew or continue the policy without losing continuity benefits.").data },
    { questionPattern :=
        RE.cat [L ("waiting period"), dotStar, L ("pre"), RE.opt RE.dot,
          L ("existing")],
      contentPatterns :=
        [RE.cat [L ("pre"), RE.opt RE.dot, L ("existing"), RE.dotStarL,
           L ("thirty"), RE.opt RE.dot, L ("six"), RE.wsStarRe, L ("(36)"),
           RE.wsStarRe, L ("month"), sOpt],
         RE.cat [L ("pre"), RE.opt RE.dot, L ("existing"), RE.dotStarL,
           L ("36"), RE.wsStarRe, L ("month"), sOpt],
         RE.cat [L ("waiting period"), RE.dotStarL, L ("pre"), RE.opt RE.dot,
           L ("existing"), RE.dotStarL, RE.digitsRe, RE.wsStarRe,
           L ("month"), sOpt],
         RE.cat [L ("excluded until"), RE.dotStarL,
           L ("expiry of thirty six"), RE.dotStarL, L ("month"), sOpt]],
      defaultAnswer := ("There is a waiting period of thirty-six (36) months of continuous coverage from the first policy inception for pre-existing diseases and their direct complications to be covered.").data },
    { questionPattern := L ("maternity"),
      contentPatterns :=
        [RE.cat [L ("maternity"), RE.dotStarL, L ("covered")],
         RE.cat [L ("pregnancy"), RE.dotStarL, L ("covered")],
         RE.cat [L ("childbirth"), RE.dotStarL, L ("covered")],
         RE.cat [L ("maternity"), RE.dotStarL, L ("24"), RE.wsStarRe,
           L ("month"), sOpt],
         RE.cat [L ("female"), RE.dotStarL, L ("continuously covered"),
           RE.dotStarL, L ("24"), RE.wsStarRe, L ("month"), sOpt]],
      defaultAnswer := ("Yes, the policy covers maternity expenses, including childbirth and lawful medical termination of pregnancy. To be eligible, the female insured person must have been continuously covered for at least 24 months. The benefit is limited to two deliveries or terminations during the policy period.").data },
    { questionPattern := L ("cataract"),
      contentPatterns :=
        [RE.cat [L ("cataract"), RE.dotStarL, L ("surgery")],
         RE.cat [L ("cataract"), RE.dotStarL, L ("waiting period"),
           RE.dotStarL, RE.digitsRe, RE.wsStarRe, L ("year"), sOpt],
         RE.cat [L ("cataract"), RE.dotStarL, L ("two"), RE.wsStarRe,
           L ("(2)"), RE.wsStarRe, L ("year"), sOpt],
         L ("limit for cataract surgery")],
      defaultAnswer := ("The policy has a specific waiting period of two (2) years for cataract surgery.").data },
    { questionPattern := L ("organ donor"),
      contentPatterns :=
        [RE.cat [L ("organ donor"), RE.dotStarL, L ("medical expenses")],
         RE.cat [L ("organ"), RE.dotStarL, L ("harvesting")],
         RE.cat [L ("transplantation"), RE.dotStarL, L ("human organs")],
         RE.cat [L ("donor"), RE.dotStarL, L ("hospitalisation")]],
      defaultAnswer := ("Yes, the policy indemnifies the medical expenses for the organ donor's hospitalization for the purpose of harvesting the organ, provided the organ is for an insured person and the donation complies with the Transplantation of Human Organs Act, 1994.").data },
    { questionPattern := RE.alt (L ("no claim discount")) (L ("ncd")),
      contentPatterns :=
        [RE.cat [L ("no claim discount"), RE.dotStarL, L ("5%")],
         RE.cat [L ("ncd"), RE.dotStarL, L ("5%")],
         RE.cat [L ("discount"), RE.dotStarL, L ("base premium")],
         RE.cat [L ("renewal"), RE.dotStarL, L ("no claims"), RE.dotStarL,
           L ("5%")]],
      defaultAnswer := ("A No Claim Discount of 5% on the base premium is offered on renewal for a one-year policy term if no claims were made in the preceding year. The maximum aggregate NCD is capped at 5% of the total base premium.").data },
    { questionPattern := RE.alt (L ("health check")) (L ("preventive")),
      contentPatterns :=
        [RE.cat [L ("health check"), RE.dotStarL, L ("expenses")],
         RE.cat [L ("preventive"), RE.dotStarL, L ("health")],
         RE.cat [L ("medical examination"), RE.dotStarL, L ("reimburs")],
         RE.cat [L ("health check"), RE.dotStarL,
           L ("two continuous policy years")]],
      defaultAnswer := ("Yes, the policy reimburses expenses for health check-ups at the end of every block of two continuous policy years, provided the policy has been renewed without a break. The amount is subject to the limits specified in the Table of Benefits.").data },
    { questionPattern := RE.cat [L ("hospital"), dotStar, L ("define")],
      contentPatterns :=
        [RE.cat [L ("hospital"), RE.dotStarL, L ("institution"),
           RE.dotStarL, L ("beds")],
         RE.cat [L ("hospital"), RE.dotStarL, L ("10"), RE.dotStarL,
           L ("inpatient beds")],
         RE.cat [L ("hospital"), RE.dotStarL, L ("15 beds")],
         RE.cat [L ("qualified nursing staff"), RE.dotStarL,
           L ("medical practitioners")]],
      defaultAnswer := ("A hospital is defined as an institution with at least 10 inpatient beds (in towns with a population below ten lakhs) or 15 beds (in all other places), with qualified nursing staff and medical practitioners available 24/7, a fully equipped operation theatre, and which maintains daily records of patients.").data },
    { questionPattern := L ("ayush"),
      contentPatterns :=
        [RE.cat [L ("ayush"), RE.dotStarL, L ("treatment")],
         RE.cat [L ("ayurveda"), RE.dotStarL, L ("yoga"), RE.dotStarL,
           L ("naturopathy")],
         RE.cat [L ("unani"), RE.dotStarL, L ("siddha"), RE.dotStarL,
           L ("homeopathy")],
         L ("ayush hospital")],
      defaultAnswer := ("The policy covers medical expenses for inpatient treatment under Ayurveda, Yoga, Naturopathy, Unani, Siddha, and Homeopathy systems up to the Sum Insured limit, provided the treatment is taken in an AYUSH Hospital.").data },
    { questionPattern :=
        RE.alt (RE.cat [L ("room rent"), dotStar, L ("plan a")])
          (RE.cat [L ("icu"), dotStar, L ("charges"), dotStar, L ("plan a")]),
      contentPatterns :=
        [RE.cat [L ("plan a"), RE.dotStarL, L ("room rent"), RE.dotStarL,
           L ("1%")],
         RE.cat [L ("plan a"), RE.dotStarL, L ("icu"), RE.dotStarL,
           L ("2%")],
         RE.cat [L ("daily room rent"), RE.dotStarL, L ("capped"),
           RE.dotStarL, L ("1%")],
         RE.cat [L ("icu charges"), RE.dotStarL, L ("capped"), RE.dotStarL,
           L ("2%")]],
      defaultAnswer := ("Yes, for Plan A, the daily room rent is capped at 1% of the Sum Insured, and ICU charges are capped at 2% of the Sum Insured. These limits do not apply if the treatment is for a listed procedure in a Preferred Provider Network (PPN).").data }]

/-- Maximal runs of characters satisfying `p` (used for Python
`str.split()` with `p = not whitespace` and for `re.findall(r"\w+", s)`
with `p = word character`). -/
def runsByAux (p : Char → Bool) : Str → Str → List Str
  | [], acc => if acc.isEmpty then [] else [acc.reverse]
  | c :: t, acc =>
      if p c then runsByAux p t (c :: acc)
      else if acc.isEmpty then runsByAux p t []
      else acc.reverse :: runsByAux p t []

/-- Maximal runs of characters satisfying `p`. -/
def runsBy (p : Char → Bool) (s : Str) : List Str := runsByAux p s []

/-- The stop list of `_has_relevant_content` (line 138). -/
def relevanceStopWords : List Str :=
  ["what".data, "does".data, "this".data, "policy".data, "under".data,
   "with".data, "there".data, "have".data]

/-- `RuleBasedAnswerer._has_relevant_content` (lines 135-145): at least
half of the important question words (length > 3, not stop words) occur in
the document text.  The float comparison `found/len >= 0.5` is exact
rational arithmetic `2*found ≥ len`. -/
def hasRelevantContent (question documentText : Str) : Bool :=
  let questionWords := runsBy isWordCh (lower question)
  let importantWords := questionWords.filter
    (fun w => w.length > 3 && !(relevanceStopWords.contains w))
  if importantWords.length = 0 then false
  else
    decide (2 * (importantWords.filter (fun w => isSub w documentText)).length ≥
      importantWords.length)

/-- `RuleBasedAnswerer._extract_answer` (lines 115-133): the first
`answer_patterns` entry whose question pattern matches (`re.IGNORECASE`
modelled by lowering) yields its canonical default answer whether or not a
content pattern corroborates; otherwise the generic responses. -/
def extractAnswer (question documentText : Str) : Str :=
  match answerPatterns.find?
      (fun ap => ap.questionPattern.search (lower question)) with
  | some ap =>
      if ap.contentPatterns.any (fun cp => cp.search (lower documentText)) then
        ap.defaultAnswer
      else ap.defaultAnswer
  | none =>
      if hasRelevantContent question documentText then
        ("Based on the policy document, relevant information is available but requires detailed analysis.").data
      else ("The information is not available in the provided document.").data

/-- `RuleBasedAnswerer.answer_questions_from_document` (lines 103-113). -/
def answerQuestionsFromDocument (questions : List Str)
    (documentText : Str) : List Str :=
  questions.map (fun q => extractAnswer (lower q) (lower documentText))


/-!
## Text utilities shared by the analyzer and answerer
-/

/-- Python `str.strip()`. -/
def pyStrip (s : Str) : Str :=
  ((s.dropWhile isWS).reverse.dropWhile isWS).reverse

/-- ASCII uppercase letter. -/
def isUpperCh (c : Char) : Bool := 'A' ≤ c && c ≤ 'Z'

/-- A sentence-ending character `[.!?]`. -/
def isEnder (c : Char) : Bool := c = '.' || c = '!' || c = '?'

/-- `re.split(r"[.!?]+", s)`: pieces between maximal runs of enders,
including empty leading/trailing pieces, as Python produces them.  The
Bool state is true while consuming an ender run. -/
def splitEndersAux : Bool → Str → Str → List Str
  | _, [], acc => [acc.reverse]
  | true, c :: t, acc =>
      if isEnder c then splitEndersAux true t acc
      else splitEndersAux false t [c]
  | false, c :: t, acc =>
      if isEnder c then acc.reverse :: splitEndersAux true t []
      else splitEndersAux false t (c :: acc)

/-- `re.split(r"[.!?]+", s)`. -/
def splitEnders (s : Str) : List Str := splitEndersAux false s []

/-- Does the string start with a whitespace character? -/
def headIsWS (s : Str) : Bool :=
  match s with
  | c :: _ => isWS c
  | [] => false

/-- `re.split(r"(?<=[.!?])\s+", s)`: split after an ender that is followed
by whitespace, consuming the whitespace run.  The Bool state is true while
consuming the whitespace run. -/
def splitSentencesAux : Bool → Str → Str → List Str
  | _, [], acc => [acc.reverse]
  | true, c :: t, acc =>
      if isWS c then splitSentencesAux true t acc
      else if isEnder c && headIsWS t then
        (c :: acc).reverse :: splitSentencesAux true t []
      else splitSentencesAux false t (c :: acc)
  | false, c :: t, acc =>
      if isEnder c && headIsWS t then
        (c :: acc).reverse :: splitSentencesAux true t []
      else splitSentencesAux false t (c :: acc)

/-- `re.split(r"(?<=[.!?])\s+", s)`. -/
def splitSentences (s : Str) : List Str := splitSentencesAux false s []

/-- Python string `<` (lexicographic by code point). -/
def strLtB : Str → Str → Bool
  | [], [] => false
  | [], _ :: _ => true
  | _ :: _, [] => false
  | c :: cs, d :: ds => if c < d then true else if d < c then false else strLtB cs ds

/-- `re.sub` driver: leftmost matches, non-overlapping, replacement computed
from the matched substring, scanning resumed after the match (the
repository's patterns never match the empty string; an empty match advances
one character, as a safeguard). -/
def reSubAux (r : RE) (f : Str → Str) : Nat → Str → Str
  | 0, s => s
  | _ + 1, [] =>
      (match r.matchAt [] with
       | some _ => f []
       | none => [])
  | fuel + 1, c :: t =>
      match r.matchAt (c :: t) with
      | some rest =>
          let m := (c :: t).take ((c :: t).length - rest.length)
          if m.isEmpty then c :: reSubAux r f fuel t
          else f m ++ reSubAux r f fuel rest
      | none => c :: reSubAux r f fuel t

/-- `re.sub`. -/
def reSub (r : RE) (f : Str → Str) (s : Str) : Str :=
  reSubAux r f (s.length + 1) s

/-!
## `GeneralDocumentAnalyzer._clean_response_text`
(general_analyzer.py lines 367-403)
-/

/-- `"([A-Za-z][A-Za-z\s]*?)"`. -/
def quotedRe1 : RE :=
  RE.cat [RE.ch '"', RE.cls isAlphaCh,
    RE.starL (RE.cls (fun c => isAlphaCh c || isWS c)), RE.ch '"']

/-- `"([A-Za-z]{2,})"`. -/
def quotedRe2 : RE :=
  RE.cat [RE.ch '"', RE.cls isAlphaCh, RE.plus (RE.cls isAlphaCh), RE.ch '"']

/-- `"([A-Z][a-z]+ [A-Z][a-z]+)"`. -/
def quotedRe3 : RE :=
  RE.cat [RE.ch '"', RE.cls isUpperCh, RE.plus (RE.cls isLowerCh), RE.ch ' ',
    RE.cls isUpperCh, RE.plus (RE.cls isLowerCh), RE.ch '"']

/-- `"([A-Z]{2,}[A-Z\s]*)"`. -/
def quotedRe4 : RE :=
  RE.cat [RE.ch '"', RE.cls isUpperCh, RE.plus (RE.cls isUpperCh),
    RE.star (RE.cls (fun c => isUpperCh c || isWS c)), RE.ch '"']

/-- `\s+`. -/
def wsPlusRe : RE := RE.plus (RE.cls isWS)

/-- `--- Page \d+ ---`. -/
def pageMarkerRe : RE := RE.cat [L ("--- Page "), RE.digitsRe, L (" ---")]

/-- `Page \d+ of \d+`. -/
def pageOfRe : RE :=
  RE.cat [L ("Page "), RE.digitsRe, L (" of "), RE.digitsRe]

/-- `UIN[-:]?\s*[A-Z0-9]+`. -/
def uinRe : RE :=
  RE.cat [L ("UIN"), RE.opt (RE.cls (fun c => c = '-' || c = ':')),
    RE.wsStarRe, RE.plus (RE.cls (fun c => isUpperCh c || isDigitCh c))]

/-- Replacement `\1` for the quoted-term patterns: the match without its
surrounding quotes. -/
def stripQuotes (m : Str) : Str := (m.drop 1).dropLast

/-- `_clean_response_text` (general_analyzer.py lines 367-403): the chain
of `re.sub` passes, whitespace collapsing, whole-text quote unwrapping and
artifact removal, in program order. -/
def cleanResponseText (text0 : Str) : Str :=
  let t := reSub quotedRe1 stripQuotes text0
  let t := reSub quotedRe2 stripQuotes t
  let t := reSub quotedRe3 stripQuotes t
  let t := reSub quotedRe4 stripQuotes t
  let t := reSub wsPlusRe (fun _ => [' ']) t
  let t := pyStrip t
  let t :=
    if t.head? = some '"' && t.getLast? = some '"' && t.count '"' = 2 then
      pyStrip ((t.drop 1).dropLast)
    else t
  let t := reSub pageMarkerRe (fun _ => []) t
  let t := reSub pageOfRe (fun _ => []) t
  let t := reSub uinRe (fun _ => []) t
  let t := reSub wsPlusRe (fun _ => [' ']) t
  pyStrip t


/-!
## `GeneralDocumentAnalyzer.answer_question` and its responders
(general_analyzer.py lines 63-365)

`analyze_document` computes `main_topics` via `list(set(topics))`, whose
order depends on the interpreter's string-hash seed, so the analysis record
is not a deterministic function of the text; the analysis is therefore an
explicit input (exactly the `document_analysis` parameter the Python
methods take), and callers receive the `analyze` behaviour as a parameter.
-/

/-- The fields of the `analyze_document` dict that `answer_question` and
its responders read. -/
structure DocumentAnalysis where
  document_type : Str
  main_topics : List Str
  key_sections : List (Str × Str)
  document_summary : Str

/-- The analysis dict built by the `except` branch of `analyze_document`
(general_analyzer.py lines 53-61). -/
def failedAnalysis : DocumentAnalysis :=
  { document_type := "unknown".data,
    main_topics := [],
    key_sections := [],
    document_summary := "Document analysis failed".data }

/-- The `question_types` table (lines 25-36), in dict insertion order. -/
def questionTypes : List (Str × List Str) :=
  [("what_is".data, ["what is".data, "what does".data, "what are".data]),
   ("how_to".data, ["how to".data, "how do".data, "how can".data,
     "how should".data]),
   ("when".data, ["when".data, "what time".data, "at what point".data]),
   ("where".data, ["where".data, "in which".data, "at which location".data]),
   ("why".data, ["why".data, "what reason".data, "what purpose".data]),
   ("who".data, ["who".data, "which person".data, "what entity".data]),
   ("list".data, ["list".data, "what are all".data, "enumerate".data,
     "name all".data]),
   ("definition".data, ["define".data, "definition of".data,
     "meaning of".data, "what does mean".data]),
   ("process".data, ["process".data, "procedure".data, "steps".data,
     "how does work".data]),
   ("rules".data, ["rules".data, "regulations".data, "requirements".data,
     "policies about".data])]

/-- `_classify_question` (lines 229-234). -/
def classifyQuestion (question : Str) : Str :=
  match questionTypes.find? (fun t => t.2.any (fun p => isSub p question)) with
  | some t => t.1
  | none => "general".data

/-- The `type_descriptions` table of `_answer_document_about`
(lines 245-255). -/
def typeDescriptions : List (Str × Str) :=
  [("insurance_policy".data, ("This is an insurance policy document").data),
   ("contract".data, ("This is a contractual agreement document").data),
   ("manual".data, ("This is an instructional manual or guide").data),
   ("report".data, ("This is a report or analysis document").data),
   ("legal".data, ("This is a legal document").data),
   ("medical".data, ("This is a medical document").data),
   ("financial".data, ("This is a financial document").data),
   ("technical".data, ("This is a technical specification document").data),
   ("general_document".data, ("This is a general document").data)]

/-- `_answer_document_about` (lines 236-269). -/
def answerDocumentAbout (analysis : DocumentAnalysis) : Str :=
  let descr :=
    ((typeDescriptions.find? (fun td => td.1 = analysis.document_type)).map
      Prod.snd).getD ("This is a document".data)
  let parts := [descr] ++
    (if !analysis.document_summary.isEmpty &&
        analysis.document_summary.length > 50 then
      [("that ".data) ++ analysis.document_summary.take 200 ++ ("...".data)]
    else []) ++
    (if !analysis.main_topics.isEmpty then
      [("It covers topics such as: ".data) ++
        List.intercalate (", ".data) (analysis.main_topics.take 5) ++
        (".".data)]
    else [])
  cleanResponseText (List.intercalate (" ".data) parts)

/-- `_answer_main_topics` (lines 271-293). -/
def answerMainTopics (analysis : DocumentAnalysis) : Str :=
  if analysis.main_topics.isEmpty && analysis.key_sections.isEmpty then
    ("Unable to identify specific topics from the document content.").data
  else
    let headline := ("The main topics covered in this document include:").data
    let topicLines :=
      if !analysis.main_topics.isEmpty then
        ((analysis.main_topics.take 8).enum).map (fun it =>
          pyStrInt (it.1 + 1) ++ (". ".data) ++ it.2)
      else []
    let sectionLines :=
      if !analysis.key_sections.isEmpty && analysis.main_topics.isEmpty then
        ((analysis.key_sections.enum).filter (fun it => it.1 + 1 ≤ 8)).map
          (fun it => pyStrInt (it.1 + 1) ++ (". ".data) ++ pyTitle it.2.1)
      else []
    cleanResponseText
      (List.intercalate ("\n".data) ([headline] ++ topicLines ++ sectionLines))

/-- One rule pattern `[Xx]word\s+[^.!?]*[.!?]` of `_answer_rules_question`
(lines 298-306). -/
def ruleSentenceRe (upper : Char) (lowRest : String) : RE :=
  RE.cat [RE.cls (fun c => c = upper || c = upper.toLower), RE.lit lowRest.data,
    RE.plus (RE.cls isWS), RE.star (RE.cls (fun c => !isEnder c)),
    RE.cls isEnder]

/-- The `rule_patterns` list (lines 298-306), in order. -/
def rulePatterns : List RE :=
  [ruleSentenceRe 'S' ("hall"),
   ruleSentenceRe 'M' ("ust"),
   ruleSentenceRe 'R' ("equired"),
   ruleSentenceRe 'P' ("rohibited"),
   RE.cat [RE.cls (fun c => c = 'N' || c = 'n'), L ("ot"),
     RE.plus (RE.cls isWS), L ("permitted"), RE.plus (RE.cls isWS),
     RE.star (RE.cls (fun c => !isEnder c)), RE.cls isEnder],
   RE.cat [RE.cls (fun c => c = 'R' || c = 'r'), L ("ule"), sOpt,
     RE.plus (RE.cls isWS), RE.star (RE.cls (fun c => !isEnder c)),
     RE.cls isEnder],
   RE.cat [RE.cls (fun c => c = 'R' || c = 'r'), L ("egulation"), sOpt,
     RE.plus (RE.cls isWS), RE.star (RE.cls (fun c => !isEnder c)),
     RE.cls isEnder]]

/-- `_answer_rules_question` (lines 295-330). -/
def answerRulesQuestion (question documentText : Str)
    (_analysis : DocumentAnalysis) : Str :=
  let rules := rulePatterns.flatMap (fun p => (p.findall documentText).take 3)
  let questionKeywords :=
    ((runsBy isWordCh (lower question)).filter
      (fun w => w.all isLowerCh)).filter (fun w => w.length > 3)
  let relevantRules := (rules.filter (fun rule =>
    questionKeywords.any (fun kw => isSub kw (lower rule)))).map pyStrip
  if !relevantRules.isEmpty then
    cleanResponseText
      (("Based on the document, here are the relevant rules:\n\n").data ++
        List.intercalate ("\n\n".data) (relevantRules.take 3))
  else if !rules.isEmpty then
    cleanResponseText
      (("Here are some key rules from the document:\n\n").data ++
        List.intercalate ("\n\n".data) (rules.take 3))
  else
    ("No specific rules or regulations were found in the document related to your query.").data

/-- The stop list of `_answer_general_question` (line 337). -/
def generalStopWords : List Str :=
  ["what".data, "where".data, "when".data, "who".data, "why".data,
   "how".data, "does".data, "this".data, "that".data, "with".data,
   "from".data, "they".data, "have".data, "been".data]

/-- Descending order on scored sentences, the sort of line 356
(`key=lambda x: x[0], reverse=True`, a stable sort on the score alone). -/
def byScoreDescNat (a b : Nat × Str) : Prop := b.1 ≤ a.1

instance : DecidableRel byScoreDescNat := fun a b =>
  inferInstanceAs (Decidable (b.1 ≤ a.1))

instance : IsTotal (Nat × Str) byScoreDescNat := ⟨fun a b => Nat.le_total b.1 a.1⟩

instance : IsTrans (Nat × Str) byScoreDescNat :=
  ⟨fun _ _ _ h1 h2 => Nat.le_trans h2 h1⟩

/-- `_answer_general_question` (lines 332-365). -/
def answerGeneralQuestion (question documentText : Str)
    (analysis : DocumentAnalysis) : Str :=
  let questionWords := (runsBy isWordCh (lower question)).filter
    (fun w => w.all isAlphaCh)
  let questionKeywords := questionWords.filter
    (fun w => w.length > 3 && !(generalStopWords.contains w))
  if questionKeywords.isEmpty then
    ("Unable to identify key terms in your question to search the document.").data
  else
    let scored := (splitEnders documentText).filterMap (fun sent =>
      let sentClean := pyStrip sent
      if sentClean.length > 20 && sentClean.length < 500 then
        let score := (questionKeywords.filter
          (fun kw => isSub kw (lower sentClean))).length
        if score > 0 then some (score, sentClean) else none
      else none)
    let sorted := List.insertionSort byScoreDescNat scored
    let top := (sorted.take 3).map Prod.snd
    if !top.isEmpty then
      cleanResponseText (List.intercalate (" ".data) top)
    else
      cleanResponseText analysis.document_summary

/-- `GeneralDocumentAnalyzer.answer_question` (lines 63-91): classify the
question and dispatch to a responder.  The analysis record is the
`document_analysis` parameter of the Python method. -/
def analyzerAnswerQuestion (question documentText : Str)
    (analysis : DocumentAnalysis) : Str :=
  let questionLower := pyStrip (lower question)
  let questionType := classifyQuestion questionLower
  if questionType = "what_is".data &&
      (["document".data, "about".data, "this".data].any
        (fun w => isSub w questionLower)) then
    answerDocumentAbout analysis
  else if questionType = "what_is".data &&
      isSub ("main topics".data) questionLower then
    answerMainTopics analysis
  else if questionType = "list".data || isSub ("topics".data) questionLower then
    answerMainTopics analysis
  else if isSub ("rules".data) questionLower ||
      isSub ("regulations".data) questionLower then
    answerRulesQuestion question documentText analysis
  else
    answerGeneralQuestion question documentText analysis


/-!
## `QuestionAnswerer` (src/app/services/question_answerer.py)

The Gemini client is external: its behaviour is a parameter
`llm : Str → Except Unit Str` mapping a prompt to the stripped-able
response text or to a raised exception; `gemini_available` is the
capability flag computed once in `__init__`.  The general analyzer's
`analyze_document` is passed as a behaviour `analyze` for the reason given
above (hash-order nondeterminism of `main_topics`).
-/

/-- Round a rational to two decimals (ties to even) and print it, the
Python `f"{x:.2f}"` used on similarity scores; the binary-double rounding
step of CPython is not modelled, scores being data here. -/
def format2dp (q : ℚ) : Str :=
  let scaled := q * 100
  let fl : Int := ⌊scaled⌋
  let fr := scaled - (fl : ℚ)
  let n : Int :=
    if fr < 1/2 then fl
    else if 1/2 < fr then fl + 1
    else if fl % 2 = 0 then fl else fl + 1
  let sign : Str := if n < 0 then ['-'] else []
  let a := n.natAbs
  sign ++ pyStrInt (a / 100) ++ ('.' :: (if a % 100 < 10 then ['0'] else []) ++
    pyStrInt ((a : Int) % 100))

/-- `_prepare_context` (question_answerer.py lines 106-124): the top five
results formatted and joined with `"\n---\n"`, or the no-content message. -/
def prepareContext (searchResults : List SearchResult) : Str :=
  if searchResults.isEmpty then
    ("No relevant document content found.").data
  else
    let parts := ((searchResults.take 5).enum).map (fun ir =>
      ("[Context ".data) ++ pyStrInt (ir.1 + 1) ++ ("] (Document: ".data) ++
        ir.2.chunk.document_name ++ (", Relevance: ".data) ++
        format2dp ir.2.similarity_score ++ (")\n".data) ++
        ir.2.chunk.chunk_text.take 1000 ++ ("\n".data))
    List.intercalate ("\n---\n".data) parts

/-- `---\s*Page\s+\d+\s*---`, the page-marker pattern of
`_extract_relevant_content` (line 181). -/
def pageMarkerLooseRe : RE :=
  RE.cat [L ("---"), RE.wsStarRe, L ("Page"), RE.plus (RE.cls isWS),
    RE.digitsRe, RE.wsStarRe, L ("---")]

/-- A case-insensitive literal piece (the boilerplate pattern carries
`re.IGNORECASE` but substitutes on the original text). -/
def Lci (w : String) : RE :=
  RE.cat (w.data.map (fun c => RE.cls (fun x => x.toLower = c.toLower)))

/-- The boilerplate pattern of `_extract_relevant_content` (line 183):
`www\.[^\s]+|E[- ]?mail:|Call at:|Toll Free|Policy Wordings|UIN-|Issuing
Office:|For more details, log on to:|Sales - \d+|Service - \d+`. -/
def boilerplateRe : RE :=
  [RE.cat [Lci ("www."), RE.plus (RE.cls (fun c => !isWS c))],
   RE.cat [Lci ("E"), RE.opt (RE.cls (fun c => c = '-' || c = ' ')),
     Lci ("mail:")],
   Lci ("Call at:"), Lci ("Toll Free"), Lci ("Policy Wordings"), Lci ("UIN-"),
   Lci ("Issuing Office:"), Lci ("For more details, log on to:"),
   RE.cat [Lci ("Sales - "), RE.digitsRe],
   RE.cat [Lci ("Service - "), RE.digitsRe]].foldr RE.alt (RE.cls (fun _ => false))

/-- `^[A-Z\s\-:]+$` via `re.match`: the whole line is uppercase letters,
whitespace, dashes and colons (the class contains `\s`, so the trailing
newline `$` tolerates is itself in the class). -/
def isHeadingLine (s : Str) : Bool :=
  !s.isEmpty && s.all (fun c => isUpperCh c || isWS c || c = '-' || c = ':')

/-- Descending order on the full `(score, sentence)` pair, the Python
tuple comparison of `scored_sentences.sort(reverse=True)` (line 201). -/
def byPairDesc (a b : Nat × Str) : Prop :=
  b.1 < a.1 ∨ (b.1 = a.1 ∧ (strLtB b.2 a.2 = true ∨ b.2 = a.2))

instance : DecidableRel byPairDesc := fun a b => by
  unfold byPairDesc
  infer_instance

/-- `_extract_relevant_content` (question_answerer.py lines 173-221): up to
three relevant sentences by keyword overlap with the question, with
cleaning and the two-sentence fallback. -/
def extractRelevantContent (question context : Str) : Str :=
  if context.isEmpty || (pyStrip context).isEmpty then
    ("No relevant information found in the document.").data
  else
    let cleaned := reSub pageMarkerLooseRe (fun _ => []) context
    let cleaned := reSub boilerplateRe (fun _ => []) cleaned
    let sentences := splitSentences cleaned
    let questionWords :=
      (runsBy isWordCh (lower question)).eraseDups
    let scored := sentences.filterMap (fun sent =>
      let sentClean := pyStrip sent
      if sentClean.length < 30 || isHeadingLine sentClean then none
      else
        let sentenceWords := (runsBy isWordCh (lower sentClean)).eraseDups
        let score := (sentenceWords.filter
          (fun w => questionWords.contains w)).length
        if score > 0 then some (score, sentClean) else none)
    let sorted := List.insertionSort byPairDesc scored
    let top := (sorted.take 3).map Prod.snd
    if !top.isEmpty then List.intercalate (" ".data) top
    else
      let fallback := ((sentences.map pyStrip).filter (fun sc =>
        sc.length > 40 && !isHeadingLine sc)).take 2
      if !fallback.isEmpty then List.intercalate (" ".data) fallback
      else ("No relevant information found in the document.").data

/-- The prompt template of `_answer_single_question` (lines 133-148). -/
def singleQuestionPrompt (context question : Str) : Str :=
  ("\nYou are an expert document analyst. Answer the question based ONLY on the document context below.\n\nDOCUMENT CONTEXT:\n").data ++
    context ++ ("\n\nQUESTION: ".data) ++ question ++
    ("\n\nINSTRUCTIONS:\n- You MUST provide an answer based on the context provided.\n- Extract and synthesize the most relevant information from the context.\n- If exact information isn't explicitly stated, provide the closest relevant information.\n- NEVER say the information is unavailable or not in the document.\n- Be concise but informative.\n\nANSWER:").data

/-- `_answer_single_question` (lines 126-171): ask the model, strip a
leading `answer:` label, and fall back to keyword extraction when the call
raises or the response is empty or refusing. -/
def answerSingleQuestion (geminiAvailable : Bool)
    (llm : Str → Except Unit Str) (question context : Str) : Str :=
  if !geminiAvailable then extractRelevantContent question context
  else
    match llm (singleQuestionPrompt context question) with
    | Except.error _ => extractRelevantContent question context
    | Except.ok raw =>
        let answer := pyStrip raw
        let answer :=
          if ("answer:".data).isPrefixOf (lower answer) then
            pyStrip (answer.drop 7)
          else answer
        if answer.isEmpty || isSub ("not available in".data) (lower answer) ||
            isSub ("unable to".data) (lower answer) then
          extractRelevantContent question context
        else answer

/-- `answer_questions` (question_answerer.py lines 53-104): without the
model, analyse the concatenated chunk texts and answer each question with
the general analyzer; with the model, answer each question over the
prepared context.  Each loop iteration appends exactly one answer. -/
def answerQuestions (geminiAvailable : Bool) (llm : Str → Except Unit Str)
    (analyze : Str → DocumentAnalysis) (questions : List Str)
    (searchResults : List SearchResult) : List Str :=
  if !geminiAvailable then
    let combinedText := searchResults.foldl
      (fun acc r => acc ++ r.chunk.chunk_text ++ ['\n']) []
    let analysis := analyze combinedText
    questions.map (fun q => analyzerAnswerQuestion q combinedText analysis)
  else
    let context := prepareContext searchResults
    questions.map (fun q => answerSingleQuestion true llm q context)

/-- The prompt template of `_answer_with_full_text` (lines 303-318). -/
def fullTextPrompt (documentText question : Str) : Str :=
  ("\nYou are an expert document analyst. Answer the question based ONLY on the document below.\n\nDOCUMENT:\n").data ++
    documentText ++ ("\n\nQUESTION: ".data) ++ question ++
    ("\n\nINSTRUCTIONS:\n- You MUST provide an answer based on the document provided.\n- Extract and synthesize the most relevant information from the document.\n- If exact information isn't explicitly stated, provide the closest relevant information.\n- NEVER say the information is unavailable or not in the document.\n- Be concise but informative.\n\nANSWER:").data

/-- `_answer_with_full_text` (lines 287-348): truncate a long document to
head and tail, ask the model, and fall back to the general analyzer on
failure, emptiness or refusal. -/
def answerWithFullText (geminiAvailable : Bool)
    (llm : Str → Except Unit Str) (analyze : Str → DocumentAnalysis)
    (question documentText : Str) : Str :=
  if !geminiAvailable then
    analyzerAnswerQuestion question documentText (analyze documentText)
  else
    let doc :=
      if documentText.length > 6000 then
        documentText.take 4000 ++ ("\n[...document continues...]\n".data) ++
          documentText.drop (documentText.length - 2000)
      else documentText
    match llm (fullTextPrompt doc question) with
    | Except.error _ => analyzerAnswerQuestion question doc (analyze doc)
    | Except.ok raw =>
        let answer := pyStrip raw
        let answer :=
          if ("answer:".data).isPrefixOf (lower answer) then
            pyStrip (answer.drop 7)
          else answer
        if answer.isEmpty || isSub ("not available in".data) (lower answer) ||
            isSub ("unable to".data) (lower answer) then
          analyzerAnswerQuestion question doc (analyze doc)
        else answer

/-- `answer_questions_with_text` (lines 229-285): per question, the
full-text model answer, replaced by the analyzer answer when it signals
failure (contains "No relevant information found" or is shorter than 10
characters); every failure mode of one question resolves to an answer for
that question. -/
def answerQuestionsWithText (geminiAvailable : Bool)
    (llm : Str → Except Unit Str) (analyze : Str → DocumentAnalysis)
    (questions : List Str) (documentText : Str) : List Str :=
  if !geminiAvailable then
    let analysis := analyze documentText
    questions.map (fun q => analyzerAnswerQuestion q documentText analysis)
  else
    questions.map (fun q =>
      let answer := answerWithFullText true llm analyze q documentText
      if isSub ("No relevant information found".data) answer ||
          answer.length < 10 then
        analyzerAnswerQuestion q documentText (analyze documentText)
      else answer)


/-- A stored chunk whose text is one page marker: the keyword-extraction
tier selects it as the best sentence and the cleaner then erases it
entirely. -/
def pageMarkerResult : SearchResult :=
  { chunk := { chunk_id := "doc.pdf_0_ab12cd34".data,
               document_name := "doc.pdf".data,
               chunk_text := "--- Page 11111111111111 ---.".data,
               chunk_index := 0 },
    similarity_score := 0 }


/-!
## `DocumentChunker` (src/app/services/chunker.py)

`count_tokens` calls the external tiktoken `cl100k_base` encoder, so the
tokenizer is a parameter `countTokens` of the chunking functions;
`wordCountTokens` below is the concrete executable instance used for the
claims' witnesses (one token per whitespace-separated word).
`_create_chunk` only wraps each accumulated text with a uuid-based id and
page attribution, so the chunk texts carry the claims' content.
-/

/-- Python `str.split()`: maximal runs of non-whitespace characters. -/
def words (s : Str) : List Str := runsBy (fun c => !isWS c) s

/-- The word-count tokenizer instance. -/
def wordCountTokens (s : Str) : Nat := (words s).length

/-- Python `" ".join(ws)`. -/
def joinWords : List Str → Str
  | [] => []
  | [w] => w
  | w :: w2 :: ws => w ++ ' ' :: joinWords (w2 :: ws)

/-- Python `ws[-k:]`: the last `k` elements — and the whole list when
`k = 0`, since `ws[-0:]` is `ws[0:]`. -/
def lastWords (k : Nat) (ws : List Str) : List Str :=
  if k = 0 then ws else ws.drop (ws.length - k)

/-- `DocumentChunker.split_by_sentences` (chunker.py lines 20-25):
`re.split(r"(?<=[.!?])\s+", text)`, stripped, empties dropped. -/
def splitBySentences (text : Str) : List Str :=
  ((splitSentences text).map pyStrip).filter (fun s => !s.isEmpty)

/-- `DocumentChunker._get_overlap_text` (chunker.py lines 89-96): the whole
buffer when it has at most `chunk_overlap` words, else its last
`chunk_overlap` words re-joined with single spaces. -/
def getOverlapText (chunkOverlap : Nat) (text : Str) : Str :=
  let ws := words text
  if ws.length ≤ chunkOverlap then text
  else joinWords (lastWords chunkOverlap ws)

/-- The sentence-accumulation loop of `DocumentChunker.create_chunks`
(chunker.py lines 38-66) producing the chunk texts: flush the buffer when
the tracked token count would exceed `chunk_size`, seed the next buffer
with the overlap text plus the triggering sentence and recount it, else
append the sentence and add its token count. -/
def createChunksAux (countTokens : Str → Nat) (chunkSize chunkOverlap : Nat) :
    List Str → Str → Nat → List Str
  | [], cur, _ => if !(pyStrip cur).isEmpty then [pyStrip cur] else []
  | s :: rest, cur, curTokens =>
      if curTokens + countTokens s > chunkSize && !cur.isEmpty then
        pyStrip cur ::
          createChunksAux countTokens chunkSize chunkOverlap rest
            (getOverlapText chunkOverlap cur ++ ' ' :: s)
            (countTokens (getOverlapText chunkOverlap cur ++ ' ' :: s))
      else
        createChunksAux countTokens chunkSize chunkOverlap rest
          (if cur.isEmpty then s else cur ++ ' ' :: s)
          (curTokens + countTokens s)

/-- `DocumentChunker.create_chunks` (chunker.py lines 27-68), as the list
of chunk texts. -/
def createChunkTexts (countTokens : Str → Nat)
    (chunkSize chunkOverlap : Nat) (text : Str) : List Str :=
  createChunksAux countTokens chunkSize chunkOverlap
    (splitBySentences text) [] 0

/-- Maximal sentence token count of a text (0 when there are no
sentences). -/
def maxSentenceTokens (countTokens : Str → Nat) (text : Str) : Nat :=
  (splitBySentences text).foldr (fun s m => max (countTokens s) m) 0

/-- Three six-word sentences: with `chunk_size = 10` and
`chunk_overlap = 8` the second chunk carries the whole first chunk as its
overlap seed plus the second sentence, 12 words in all. -/
def overflowText : Str :=
  "a b c d e f. g h i j k l. m n o p q r.".data


/-- The seed region described by the overlap claim: the whole previous
chunk's words when there are at most `chunk_overlap` of them, else exactly
its last `chunk_overlap` words. -/
def seedWords (overlap : Nat) (ws : List Str) : List Str :=
  if ws.length ≤ overlap then ws else ws.drop (ws.length - overlap)

/-!
## Theorems

Supporting lemmas first, then the claim theorems with their witnesses
and counterexamples.
-/

theorem le_listMax2 {l : List (Str × Nat)} {p : Str × Nat} (h : p ∈ l) :
    p.2 ≤ listMax2 l := by
  induction l with
  | nil => cases h
  | cons x xs ih =>
    rcases List.mem_cons.mp h with h | h
    · subst h; exact le_max_left _ _
    · exact le_trans (ih h) (le_max_right _ _)

theorem listMax2_attained (l : List (Str × Nat)) :
    listMax2 l = 0 ∨ ∃ p ∈ l, p.2 = listMax2 l := by
  induction l with
  | nil => exact Or.inl rfl
  | cons x xs ih =>
    rcases Nat.le_total (listMax2 xs) x.2 with h | h
    · right
      refine ⟨x, List.mem_cons_self _ _, ?_⟩
      simp only [listMax2]
      omega
    · rcases ih with h0 | ⟨p, hp, hpv⟩
      · rcases Nat.eq_zero_or_pos x.2 with hx | hx
        · left; simp only [listMax2]; omega
        · right
          refine ⟨x, List.mem_cons_self _ _, ?_⟩
          simp only [listMax2]
          omega
      · right
        refine ⟨p, List.mem_cons_of_mem _ hp, ?_⟩
        simp only [listMax2]
        omega

theorem find?_of_attained {l : List (Str × Nat)} {p : Str × Nat}
    (hp : p ∈ l) (hpv : p.2 = listMax2 l) :
    ∃ v, l.find? (fun q => decide (listMax2 l ≤ q.2)) = some v := by
  have hne : l.find? (fun q => decide (listMax2 l ≤ q.2)) ≠ none := by
    intro hnone
    have := List.find?_eq_none.mp hnone p hp
    simp [hpv] at this
  rcases Option.ne_none_iff_exists'.mp hne with ⟨v, hv⟩
  exact ⟨v, hv⟩

theorem foldl_max_eq_find (xs : List (Str × Nat)) (acc : Str × Nat) :
    xs.foldl (fun best y => if y.2 > best.2 then y else best) acc =
      if listMax2 xs ≤ acc.2 then acc
      else ((xs.find? (fun p => decide (listMax2 xs ≤ p.2))).getD acc) := by
  induction xs generalizing acc with
  | nil => simp [listMax2]
  | cons y ys ih =>
    rw [List.foldl_cons, ih]
    by_cases hy : y.2 > acc.2
    · rw [if_pos hy]
      have hnot : ¬ listMax2 (y :: ys) ≤ acc.2 := by
        simp only [listMax2]; omega
      rw [if_neg hnot]
      by_cases hys : listMax2 ys ≤ y.2
      · have hm : listMax2 (y :: ys) = y.2 := by simp only [listMax2]; omega
        rw [if_pos hys]
        simp [List.find?, hm]
      · have hm : listMax2 (y :: ys) = listMax2 ys := by
          simp only [listMax2]; omega
        have hylt : ¬ listMax2 (y :: ys) ≤ y.2 := by
          simp only [listMax2]; omega
        rw [if_neg hys]
        simp only [List.find?, hm]
        have : decide (listMax2 ys ≤ y.2) = false := by
          simp only [decide_eq_false_iff_not]
          omega
        rw [this]
        rcases listMax2_attained ys with h0 | ⟨p, hp, hpv⟩
        · omega
        · rcases find?_of_attained hp hpv with ⟨v, hv⟩
          simp [hv]
    · rw [if_neg hy]
      by_cases hys : listMax2 ys ≤ acc.2
      · have : listMax2 (y :: ys) ≤ acc.2 := by
          simp only [listMax2]; omega
        rw [if_pos hys, if_pos this]
      · have hnot : ¬ listMax2 (y :: ys) ≤ acc.2 := by
          simp only [listMax2]; omega
        have hm : listMax2 (y :: ys) = listMax2 ys := by
          simp only [listMax2]; omega
        rw [if_neg hys, if_neg hnot]
        simp only [List.find?, hm]
        have : decide (listMax2 ys ≤ y.2) = false := by
          simp only [decide_eq_false_iff_not]
          omega
        rw [this]

theorem maxBySecond_eq_find {l : List (Str × Nat)} (h : l ≠ []) :
    maxBySecond l = l.find? (fun p => decide (listMax2 l ≤ p.2)) := by
  match l with
  | x :: xs =>
    rw [maxBySecond, foldl_max_eq_find]
    by_cases hxs : listMax2 xs ≤ x.2
    · have hm : listMax2 (x :: xs) = x.2 := by simp only [listMax2]; omega
      rw [if_pos hxs]
      simp [List.find?, hm]
    · have hm : listMax2 (x :: xs) = listMax2 xs := by
        simp only [listMax2]; omega
      rw [if_neg hxs]
      simp only [List.find?, hm]
      have : decide (listMax2 xs ≤ x.2) = false := by
        simp only [decide_eq_false_iff_not]
        omega
      rw [this]
      rcases listMax2_attained xs with h0 | ⟨p, hp, hpv⟩
      · omega
      · rcases find?_of_attained hp hpv with ⟨v, hv⟩
        simp [hv]

/-- `find?` finds the first satisfying element: there is an index `i` whose
element is returned, every earlier element fails the predicate. -/
theorem find?_first {α : Type} (l : List α) (p : α → Bool) {x : α}
    (h : l.find? p = some x) :
    ∃ i : Fin l.length, l.get i = x ∧ p x = true ∧
      ∀ j : Fin l.length, j.1 < i.1 → p (l.get j) = false := by
  induction l with
  | nil => simp at h
  | cons y ys ih =>
    by_cases hy : p y = true
    · have hfind : (y :: ys).find? p = some y := by simp [List.find?, hy]
      rw [hfind] at h
      injection h with h
      subst h
      refine ⟨⟨0, by simp⟩, rfl, hy, ?_⟩
      intro j hj
      exact absurd hj (by simp)
    · have hy' : p y = false := by simp at hy; simp [hy]
      have hfind : (y :: ys).find? p = ys.find? p := by simp [List.find?, hy']
      rw [hfind] at h
      rcases ih h with ⟨i, hget, hpx, hfirst⟩
      refine ⟨⟨i.1 + 1, by simp [Nat.succ_lt_succ i.2]⟩, ?_, hpx, ?_⟩
      · exact hget
      · intro j hj
        match j with
        | ⟨0, _⟩ => simpa using hy'
        | ⟨k + 1, hk⟩ =>
          have : k < i.1 := by simpa using hj
          simpa using hfirst ⟨k, by simpa using Nat.lt_of_succ_lt_succ hk⟩ this

theorem find?_filter_comm {α : Type} (l : List α) (q p : α → Bool) :
    (l.filter q).find? p = l.find? (fun a => q a && p a) := by
  induction l with
  | nil => rfl
  | cons y ys ih =>
    by_cases hq : q y = true
    · by_cases hp : p y = true
      · simp [List.filter, List.find?, hq, hp]
      · have hp' : p y = false := by simp at hp; simp [hp]
        simp [List.filter, List.find?, hq, hp', ih]
    · have hq' : q y = false := by simp at hq; simp [hq]
      simp [List.filter, List.find?, hq', ih]

theorem listMax2_filter_pos (l : List (Str × Nat)) :
    listMax2 (l.filter (fun p => p.2 > 0)) = listMax2 l := by
  induction l with
  | nil => rfl
  | cons y ys ih =>
    by_cases hy : y.2 > 0
    · have : (fun p : Str × Nat => decide (p.2 > 0)) y = true := by simp; omega
      simp [List.filter, this, listMax2, ih]
    · have hy0 : y.2 = 0 := by omega
      have : (fun p : Str × Nat => decide (p.2 > 0)) y = false := by simp; omega
      simp [List.filter, this, listMax2, ih, hy0]

theorem find?_congr_pred {α : Type} (l : List α) (p q : α → Bool)
    (h : ∀ a, p a = q a) : l.find? p = l.find? q := by
  induction l with
  | nil => rfl
  | cons y ys ih => simp [List.find?, h y, ih]

/-- The claim, stated over `docTypeScores`: the classifier returns
`"general_document"` exactly when no keyword of any type occurs, and
otherwise the earliest type of the table achieving the maximal keyword
count. -/
theorem identifyDocumentType_spec (documentText : Str) :
    ((∀ p ∈ docTypeScores documentText, p.2 = 0) →
      identifyDocumentType documentText = "general_document".data) ∧
    ((∃ p ∈ docTypeScores documentText, 0 < p.2) →
      ∃ i : Fin (docTypeScores documentText).length,
        identifyDocumentType documentText = ((docTypeScores documentText).get i).1 ∧
        0 < ((docTypeScores documentText).get i).2 ∧
        (∀ j : Fin (docTypeScores documentText).length, j.1 < i.1 →
          ((docTypeScores documentText).get j).2 <
            ((docTypeScores documentText).get i).2) ∧
        (∀ j : Fin (docTypeScores documentText).length,
          ((docTypeScores documentText).get j).2 ≤
            ((docTypeScores documentText).get i).2)) := by
  have hunfold : identifyDocumentType documentText =
      match maxBySecond ((docTypeScores documentText).filter (fun p => p.2 > 0)) with
      | some best => best.1
      | none => "general_document".data := rfl
  constructor
  · intro hall
    have hfl : (docTypeScores documentText).filter (fun p => p.2 > 0) = [] := by
      rw [List.filter_eq_nil_iff]
      intro a ha
      have := hall a ha
      simp [this]
    rw [hunfold, hfl]
    rfl
  · intro ⟨w, hw, hwpos⟩
    set l := docTypeScores documentText with hl
    have hmaxpos : 0 < listMax2 l := lt_of_lt_of_le hwpos (le_listMax2 hw)
    have hflne : l.filter (fun p => p.2 > 0) ≠ [] := by
      intro hnil
      have := (List.filter_eq_nil_iff.mp hnil) w hw
      simp [hwpos] at this
    have hfind : maxBySecond (l.filter (fun p => p.2 > 0)) =
        l.find? (fun p => decide (listMax2 l ≤ p.2)) := by
      rw [maxBySecond_eq_find hflne, listMax2_filter_pos,
        find?_filter_comm]
      refine find?_congr_pred _ _ _ ?_
      intro a
      by_cases hma : listMax2 l ≤ a.2
      · have : 0 < a.2 := lt_of_lt_of_le hmaxpos hma
        simp [hma, this]
      · simp [hma]
    -- find? succeeds: the maximum is attained
    rcases listMax2_attained l with h0 | ⟨pm, hpm, hpmv⟩
    · omega
    · rcases find?_of_attained hpm hpmv with ⟨v, hv⟩
      rcases find?_first l _ hv with ⟨i, hget, hpv, hfirst⟩
      have hvle : v.2 ≤ listMax2 l := le_listMax2 (hget ▸ List.get_mem l i.1 i.2)
      have hvge : listMax2 l ≤ v.2 := by simpa using hpv
      have hveq : v.2 = listMax2 l := le_antisymm hvle hvge
      refine ⟨i, ?_, ?_, ?_, ?_⟩
      · rw [hunfold, hfind, hv, hget]
      · rw [hget]; omega
      · intro j hj
        have := hfirst j hj
        simp only [decide_eq_false_iff_not, not_le] at this
        rw [hget]
        omega
      · intro j
        have hjm : l.get j ∈ l := List.get_mem l j.1 j.2
        have := le_listMax2 hjm
        rw [hget]
        omega

/-- Concrete instantiation of `identifyDocumentType_spec` on a document
containing three insurance keywords and no others. -/
theorem identifyDocumentType_spec_witness :
    ∃ i : Fin (docTypeScores ("the policy premium claim".data)).length,
      identifyDocumentType ("the policy premium claim".data) =
        ((docTypeScores ("the policy premium claim".data)).get i).1 ∧
      0 < ((docTypeScores ("the policy premium claim".data)).get i).2 ∧
      (∀ j : Fin (docTypeScores ("the policy premium claim".data)).length,
        j.1 < i.1 →
        ((docTypeScores ("the policy premium claim".data)).get j).2 <
          ((docTypeScores ("the policy premium claim".data)).get i).2) ∧
      (∀ j : Fin (docTypeScores ("the policy premium claim".data)).length,
        ((docTypeScores ("the policy premium claim".data)).get j).2 ≤
          ((docTypeScores ("the policy premium claim".data)).get i).2) :=
  (identifyDocumentType_spec ("the policy premium claim".data)).2 (by decide)



/-!
### Reranking (claims about `_rerank_by_entities` / `search_with_reranking`)
-/

/-- The sequentially accumulated bonus of `bonusScore` equals the sum of the
four independent indicator boosts. -/
theorem procBonus_eq (entities : EntityExtraction) (chunkTextLower : Str) (b : ℚ) :
    procBonus entities chunkTextLower b =
      b + (if procMentioned entities chunkTextLower then (1 : ℚ)/10 else 0) := by
  rcases he : entities.procedure with _ | p
  · simp [procBonus, procMentioned, he]
  · simp only [procBonus, procMentioned, he]
    split_ifs <;> ring

theorem locBonus_eq (entities : EntityExtraction) (chunkTextLower : Str) (b : ℚ) :
    locBonus entities chunkTextLower b =
      b + (if locationMentioned entities chunkTextLower then (1 : ℚ)/20 else 0) := by
  rcases he : entities.location with _ | loc
  · simp [locBonus, locationMentioned, he]
  · simp only [locBonus, locationMentioned, he]
    split_ifs <;> ring

theorem ageBonus_eq (entities : EntityExtraction) (chunkTextLower : Str) (b : ℚ) :
    ageBonus entities chunkTextLower b =
      b + (if ageMentioned entities chunkTextLower then (1 : ℚ)/20 else 0) := by
  rcases he : entities.age with _ | a
  · simp [ageBonus, ageMentioned, he]
  · simp only [ageBonus, ageMentioned, he]
    split_ifs <;> ring

theorem durBonus_eq (entities : EntityExtraction) (chunkTextLower : Str) (b : ℚ) :
    durBonus entities chunkTextLower b =
      b + (if durationMentioned entities chunkTextLower then (1 : ℚ)/20 else 0) := by
  rcases he : entities.policy_duration with _ | d
  · simp [durBonus, durationMentioned, he]
  · simp only [durBonus, durationMentioned, he]
    split_ifs <;> ring

theorem bonusScore_eq (entities : EntityExtraction) (chunkTextLower : Str) :
    bonusScore entities chunkTextLower =
      (if procMentioned entities chunkTextLower then (1 : ℚ)/10 else 0) +
      (if locationMentioned entities chunkTextLower then (1 : ℚ)/20 else 0) +
      (if ageMentioned entities chunkTextLower then (1 : ℚ)/20 else 0) +
      (if durationMentioned entities chunkTextLower then (1 : ℚ)/20 else 0) := by
  rw [bonusScore, durBonus_eq, ageBonus_eq, locBonus_eq, procBonus_eq]
  ring

/-- The boost of a single result never changes its chunk. -/
theorem boostResult_chunk (entities : EntityExtraction) (r : SearchResult) :
    (boostResult entities r).chunk = r.chunk := rfl

/-- The bonus is a sum of nonnegative contributions. -/
theorem bonusScore_nonneg (entities : EntityExtraction) (chunkTextLower : Str) :
    0 ≤ bonusScore entities chunkTextLower := by
  rw [bonusScore_eq]
  have h1 : (0:ℚ) ≤ if procMentioned entities chunkTextLower then (1 : ℚ)/10 else 0 := by
    split_ifs <;> norm_num
  have h2 : (0:ℚ) ≤ if locationMentioned entities chunkTextLower then (1 : ℚ)/20 else 0 := by
    split_ifs <;> norm_num
  have h3 : (0:ℚ) ≤ if ageMentioned entities chunkTextLower then (1 : ℚ)/20 else 0 := by
    split_ifs <;> norm_num
  have h4 : (0:ℚ) ≤ if durationMentioned entities chunkTextLower then (1 : ℚ)/20 else 0 := by
    split_ifs <;> norm_num
  linarith

/-- C1 (amended): the reranking tail of `search_with_reranking` boosts each
result by the sum of the four entity indicators (each firing only when its
entity field is Python-truthy), caps the result at 1, sorts descending by
the new scores and truncates to `top_k`. -/
theorem searchWithRerankingPost_spec (results : List SearchResult)
    (entities : EntityExtraction) (topK : Nat) :
    List.Sorted byScoreDesc (rerankByEntities results entities) ∧
    (rerankByEntities results entities).Perm (results.map (boostResult entities)) ∧
    searchWithRerankingPost results entities topK =
      (rerankByEntities results entities).take topK ∧
    ∀ r ∈ results, (boostResult entities r).similarity_score =
      min 1 (r.similarity_score +
        ((if procMentioned entities (lower r.chunk.chunk_text) then (1 : ℚ)/10 else 0) +
         (if locationMentioned entities (lower r.chunk.chunk_text) then (1 : ℚ)/20 else 0) +
         (if ageMentioned entities (lower r.chunk.chunk_text) then (1 : ℚ)/20 else 0) +
         (if durationMentioned entities (lower r.chunk.chunk_text) then (1 : ℚ)/20 else 0))) := by
  refine ⟨List.sorted_insertionSort byScoreDesc _, List.perm_insertionSort byScoreDesc _,
    rfl, ?_⟩
  intro r _
  show min 1 (r.similarity_score + bonusScore entities (lower r.chunk.chunk_text)) = _
  rw [bonusScore_eq]

/-- C1 as literally stated fails on truthiness: with extracted age 0 (a
reachable extraction, e.g. from "0-year-old") and a chunk containing the
term "age", the claim prescribes a +0.05 boost, but the code performs no
boost: the reranked score stays 0 instead of the claimed 1/20. -/
theorem searchWithReranking_age_boost_counterexample :
    (rerankByEntities [ageZeroResult] ageZeroEntities).map
        SearchResult.similarity_score = [0] ∧
      ageZeroEntities.age = some 0 ∧
      isSub ("age".data) (lower ageZeroResult.chunk.chunk_text) = true ∧
      (0 : ℚ) ≠ min 1 (0 + 1/20) := by
  have hb : bonusScore ageZeroEntities (lower ageZeroResult.chunk.chunk_text) = 0 := by
    rw [bonusScore_eq]
    have h1 : procMentioned ageZeroEntities (lower ageZeroResult.chunk.chunk_text) = false := by
      decide
    have h2 : locationMentioned ageZeroEntities (lower ageZeroResult.chunk.chunk_text) = false := by
      decide
    have h3 : ageMentioned ageZeroEntities (lower ageZeroResult.chunk.chunk_text) = false := by
      decide
    have h4 : durationMentioned ageZeroEntities (lower ageZeroResult.chunk.chunk_text) = false := by
      decide
    rw [h1, h2, h3, h4]
    norm_num
  refine ⟨?_, rfl, by decide, by norm_num⟩
  have hscore : (boostResult ageZeroEntities ageZeroResult).similarity_score = 0 := by
    show min 1 (ageZeroResult.similarity_score +
      bonusScore ageZeroEntities (lower ageZeroResult.chunk.chunk_text)) = 0
    rw [hb]
    norm_num [ageZeroResult]
  simp [rerankByEntities, List.insertionSort, List.orderedInsert, hscore]

/-- C8: when the incoming scores lie in [0,1], every boosted score is at
least its original and every reranked score stays in [0,1]. -/
theorem rerank_monotone_capped (results : List SearchResult)
    (entities : EntityExtraction)
    (h : ∀ r ∈ results, 0 ≤ r.similarity_score ∧ r.similarity_score ≤ 1) :
    (∀ r ∈ results, r.similarity_score ≤ (boostResult entities r).similarity_score) ∧
    ∀ r ∈ rerankByEntities results entities,
      0 ≤ r.similarity_score ∧ r.similarity_score ≤ 1 := by
  constructor
  · intro r hr
    have hb := bonusScore_nonneg entities (lower r.chunk.chunk_text)
    have h1 := (h r hr).2
    show r.similarity_score ≤ min 1 (r.similarity_score + _)
    exact le_min h1 (by linarith)
  · intro r' hr'
    have hperm := List.perm_insertionSort byScoreDesc (results.map (boostResult entities))
    have hmem : r' ∈ results.map (boostResult entities) := hperm.mem_iff.mp hr'
    rcases List.mem_map.mp hmem with ⟨r, hr, hrr⟩
    subst hrr
    have hb := bonusScore_nonneg entities (lower r.chunk.chunk_text)
    have h0 := (h r hr).1
    constructor
    · show (0:ℚ) ≤ min 1 (r.similarity_score + _)
      exact le_min (by norm_num) (by linarith)
    · show min 1 (r.similarity_score + _) ≤ (1:ℚ)
      exact min_le_left _ _

/-- Concrete instantiation of `rerank_monotone_capped`: one result with
score 1/2 whose text mentions the extracted location. -/
theorem rerank_monotone_capped_witness :
    (SearchResult.mk ageChunk (1/2)).similarity_score ≤
      (boostResult { location := some ("Age".data) }
        (SearchResult.mk ageChunk (1/2))).similarity_score ∧
    0 ≤ (boostResult { location := some ("Age".data) }
        (SearchResult.mk ageChunk (1/2))).similarity_score ∧
    (boostResult { location := some ("Age".data) }
        (SearchResult.mk ageChunk (1/2))).similarity_score ≤ 1 := by
  have h := rerank_monotone_capped [SearchResult.mk ageChunk (1/2)]
    { location := some ("Age".data) }
    (by
      intro r hr
      rw [List.mem_singleton] at hr
      subst hr
      norm_num)
  refine ⟨h.1 _ (List.mem_singleton_self _), ?_⟩
  refine h.2 _ ?_
  show boostResult _ _ ∈
    List.insertionSort byScoreDesc [boostResult _ (SearchResult.mk ageChunk (1/2))]
  simp [List.insertionSort]

/-- C10: before the final truncation, reranking returns a permutation of its
input results: the multiset of chunks is unchanged, only scores and order
change. -/
theorem rerank_chunks_perm (results : List SearchResult)
    (entities : EntityExtraction) :
    ((rerankByEntities results entities).map SearchResult.chunk).Perm
      (results.map SearchResult.chunk) := by
  have h := (List.perm_insertionSort byScoreDesc
    (results.map (boostResult entities))).map SearchResult.chunk
  rw [List.map_map] at h
  have : SearchResult.chunk ∘ boostResult entities = SearchResult.chunk := by
    funext r
    exact boostResult_chunk entities r
  rw [this] at h
  exact h


/-!
### Entity extraction (claim about the example query)
-/

/-- C5 counterexample: on the fixed example query, with the model-assisted
pass unavailable, the rule-based pass returns procedure "surgery" — the
first entry of `medical_procedures` found in the query — not the claimed
"knee surgery". -/
theorem extractEntities_example_procedure_counterexample :
    (extractEntitiesNoLLM exampleQuery).procedure = some ("surgery".data) ∧
      (extractEntitiesNoLLM exampleQuery).procedure ≠ some ("knee surgery".data) := by
  constructor
  · decide
  · decide

/-- C5 (amended): the example query extracts age 46, gender male, location
"Pune", policy duration "3 months" as claimed, but procedure "surgery"
(the procedure keyword list is scanned in order and "surgery" precedes
"knee surgery"). -/
theorem extractEntities_example :
    extractEntitiesNoLLM exampleQuery =
      { age := some 46, gender := some ("male".data),
        procedure := some ("surgery".data), location := some ("Pune".data),
        policy_duration := some ("3 months".data) } := by
  decide


/-!
### Degraded mode and stats statuses of the embedding service
-/

/-- C6: with no backing index every operation returns its failure/empty
flag without raising (the Lean encodings are total functions; every
`Except.error` of a backend call is mapped to the flag), and the stats
status is `"not_configured"` / `"connected"` / `"error"` according to the
index state and the outcome of the stats call. -/
theorem embeddingService_degraded_spec (svc : EmbeddingServiceState)
    (dim : Nat) (chunks : List DocumentChunk) (q : Str) (k : Nat)
    (filters : Option QueryFilter) (documentName : Str) :
    (svc.index = none →
      storeChunks svc chunks = false ∧
      searchSimilarChunks svc q k filters = [] ∧
      deleteDocument svc dim documentName = false ∧
      (getIndexStats svc dim).status = "not_configured".data) ∧
    (∀ idx, svc.index = some idx →
      (∀ st, idx.describeStats = Except.ok st →
        (getIndexStats svc dim).status = "connected".data) ∧
      (∀ e, idx.describeStats = Except.error e →
        (getIndexStats svc dim).status = "error".data)) := by
  constructor
  · intro hnone
    refine ⟨?_, ?_, ?_, ?_⟩ <;>
      simp [storeChunks, searchSimilarChunks, deleteDocument, getIndexStats,
        hnone]
  · intro idx hidx
    constructor
    · intro st hst
      simp [getIndexStats, hidx, hst]
    · intro e he
      simp [getIndexStats, hidx, he]

/-- A service with no backing index. -/
def unconfiguredService : EmbeddingServiceState :=
  { index := none, embed := fun _ => [] }

/-- A service whose index answers stats calls with an empty index. -/
def connectedService : EmbeddingServiceState :=
  { index := some
      { upsert := fun _ => Except.ok (),
        query := fun _ _ _ => Except.ok [],
        delete := fun _ => Except.ok (),
        describeStats := Except.ok (IndexStats.mk 0 384 0) },
    embed := fun _ => [] }

/-- A service whose index raises on the stats call. -/
def erroringService : EmbeddingServiceState :=
  { index := some
      { upsert := fun _ => Except.error (),
        query := fun _ _ _ => Except.error (),
        delete := fun _ => Except.error (),
        describeStats := Except.error () },
    embed := fun _ => [] }

/-- Concrete instantiation of `embeddingService_degraded_spec` on the three
service states. -/
theorem embeddingService_degraded_spec_witness :
    (storeChunks unconfiguredService [] = false ∧
      searchSimilarChunks unconfiguredService ("q".data) 10 none = [] ∧
      deleteDocument unconfiguredService 384 ("d.pdf".data) = false ∧
      (getIndexStats unconfiguredService 384).status = "not_configured".data) ∧
    (getIndexStats connectedService 384).status = "connected".data ∧
    (getIndexStats erroringService 384).status = "error".data := by
  refine ⟨(embeddingService_degraded_spec unconfiguredService 384 []
    ("q".data) 10 none ("d.pdf".data)).1 rfl, ?_, ?_⟩
  · exact (((embeddingService_degraded_spec connectedService 384 []
      ("q".data) 10 none ("d.pdf".data)).2 _ rfl).1 _ rfl)
  · exact (((embeddingService_degraded_spec erroringService 384 []
      ("q".data) 10 none ("d.pdf".data)).2 _ rfl).2 _ rfl)


/-!
### Rule-based tier: canonical answers regardless of corroboration
-/

/-- C7: whenever the question matches a fixed question pattern (the first
matching table entry decides), the rule-based tier returns that entry's
canonical answer for every document, corroborated or not. -/
theorem extractAnswer_canonical (question documentText : Str)
    (ap : AnswerPattern)
    (h : answerPatterns.find?
      (fun a => a.questionPattern.search (lower question)) = some ap) :
    extractAnswer question documentText = ap.defaultAnswer := by
  unfold extractAnswer
  rw [h]
  exact ite_self _

/-- Concrete instantiation of `extractAnswer_canonical`: the spec's example
question against the empty document still yields the canonical grace-period
answer. -/
theorem extractAnswer_canonical_witness :
    extractAnswer ("What is the grace period for premium payment?".data) [] =
      ("A grace period of thirty days is provided for premium payment after the due date to renew or continue the policy without losing continuity benefits.").data := by
  have h0 : answerPatterns.find?
      (fun a => a.questionPattern.search
        (lower ("What is the grace period for premium payment?".data))) =
      some (answerPatterns.get ⟨0, by decide⟩) := rfl
  exact extractAnswer_canonical _ [] _ h0


/-!
### Batch answering (length, order, totality; the non-emptiness part fails)
-/

/-- C2 (amended): both batch paths return exactly one answer per question,
in question order, and each answer depends only on its own question (it
equals the one-question batch's answer); the functions are total for every
model behaviour `llm` (including one that always raises) and every analyzer
behaviour, which is the no-exception guarantee.  Non-emptiness of every
answer is NOT part of this theorem: it fails, see the counterexample. -/
theorem answerBatch_length_order (geminiAvailable : Bool)
    (llm : Str → Except Unit Str) (analyze : Str → DocumentAnalysis)
    (questions : List Str) (searchResults : List SearchResult)
    (documentText : Str) :
    (answerQuestions geminiAvailable llm analyze questions
      searchResults).length = questions.length ∧
    (answerQuestionsWithText geminiAvailable llm analyze questions
      documentText).length = questions.length ∧
    answerQuestions geminiAvailable llm analyze questions searchResults =
      questions.map (fun q =>
        (answerQuestions geminiAvailable llm analyze [q] searchResults).headI) ∧
    answerQuestionsWithText geminiAvailable llm analyze questions
        documentText =
      questions.map (fun q =>
        (answerQuestionsWithText geminiAvailable llm analyze [q]
          documentText).headI) := by
  cases geminiAvailable <;>
    refine ⟨?_, ?_, ?_, ?_⟩ <;>
    simp [answerQuestions, answerQuestionsWithText, List.headI]

/-- C2 counterexample to "each non-empty": with the model unavailable, the
question "page" over one retrieved chunk reading
"--- Page 11111111111111 ---." yields the batch `[""]`: the keyword tier
returns the page-marker sentence and `_clean_response_text` erases it,
so the single answer is the empty string (reproduced against the Python
implementation). -/
theorem answerQuestions_empty_answer_counterexample :
    answerQuestions false (fun _ => Except.error ())
        (fun _ => failedAnalysis) ["page".data] [pageMarkerResult] = [[]] ∧
    (answerQuestions false (fun _ => Except.error ())
        (fun _ => failedAnalysis) ["page".data] [pageMarkerResult]).any
      (fun a => a.isEmpty) = true := by
  constructor
  · decide
  · decide


/-!
### Chunker lemmas: `words` under append, strip and join
-/

theorem runsByAux_nil {p : Char → Bool} (acc : Str) :
    runsByAux p [] acc = if acc.isEmpty then [] else [acc.reverse] := rfl

theorem runsByAux_cons {p : Char → Bool} (c : Char) (t : Str) (acc : Str) :
    runsByAux p (c :: t) acc =
      if p c then runsByAux p t (c :: acc)
      else if acc.isEmpty then runsByAux p t []
      else acc.reverse :: runsByAux p t [] := rfl

theorem runsByAux_all_not {p : Char → Bool} {t : Str} (acc : Str)
    (h : ∀ c ∈ t, p c = false) :
    runsByAux p t acc = if acc.isEmpty then [] else [acc.reverse] := by
  induction t generalizing acc with
  | nil => rfl
  | cons c t ih =>
    have hc : p c = false := h c (List.mem_cons_self _ _)
    rw [runsByAux_cons, hc]
    have ht : ∀ x ∈ t, p x = false := fun x hx => h x (List.mem_cons_of_mem _ hx)
    simp only [Bool.false_eq_true, if_false]
    by_cases hacc : acc.isEmpty
    · rw [if_pos hacc, ih [] ht]
      simp [hacc]
    · rw [if_neg hacc, ih [] ht]
      simp [hacc]

theorem runsByAux_append_stop {p : Char → Bool} {c : Char} (a : Str)
    (acc : Str) (hc : p c = false) :
    runsByAux p (a ++ [c]) acc = runsByAux p a acc := by
  induction a generalizing acc with
  | nil =>
    rw [List.nil_append, runsByAux_cons, runsByAux_nil]
    by_cases hacc : acc.isEmpty <;>
      simp [hc, hacc, runsByAux_nil]
  | cons d a ih =>
    rw [List.cons_append, runsByAux_cons, runsByAux_cons]
    by_cases hd : p d
    · rw [if_pos hd, if_pos hd, ih]
    · rw [if_neg hd, if_neg hd]
      by_cases hacc : acc.isEmpty
      · rw [if_pos hacc, if_pos hacc, ih]
      · rw [if_neg hacc, if_neg hacc, ih]

theorem runsByAux_break {p : Char → Bool} {c : Char} (a b : Str) (acc : Str)
    (hc : p c = false) :
    runsByAux p (a ++ c :: b) acc =
      runsByAux p (a ++ [c]) acc ++ runsByAux p b [] := by
  induction a generalizing acc with
  | nil =>
    rw [List.nil_append, List.nil_append, runsByAux_cons,
      runsByAux_cons, runsByAux_nil]
    by_cases hacc : acc.isEmpty <;>
      simp [hc, hacc, runsByAux_nil]
  | cons d a ih =>
    rw [List.cons_append, List.cons_append, runsByAux_cons, runsByAux_cons]
    by_cases hd : p d
    · rw [if_pos hd, if_pos hd, ih]
    · rw [if_neg hd, if_neg hd]
      by_cases hacc : acc.isEmpty
      · rw [if_pos hacc, if_pos hacc, ih]
      · rw [if_neg hacc, if_neg hacc, ih]
        rfl

theorem words_append_ws {c : Char} (a b : Str) (hc : isWS c = true) :
    words (a ++ c :: b) = words a ++ words b := by
  have hc' : (fun x => !isWS x) c = false := by simp [hc]
  unfold words runsBy
  rw [runsByAux_break a b [] hc', runsByAux_append_stop a [] hc']

theorem runsByAux_dropWhile_ws (s : Str) :
    runsByAux (fun c => !isWS c) (s.dropWhile isWS) [] =
      runsByAux (fun c => !isWS c) s [] := by
  induction s with
  | nil => rfl
  | cons c t ih =>
    by_cases hc : isWS c
    · rw [List.dropWhile_cons_of_pos hc, ih, runsByAux_cons]
      simp [hc]
    · rw [List.dropWhile_cons_of_neg hc]

theorem runsByAux_append_all_ws (l t : Str) (acc : Str)
    (h : ∀ c ∈ t, isWS c = true) :
    runsByAux (fun c => !isWS c) (l ++ t) acc =
      runsByAux (fun c => !isWS c) l acc := by
  induction l generalizing acc with
  | nil =>
    rw [List.nil_append, runsByAux_all_not acc (fun c hc => by simp [h c hc]),
      runsByAux_nil]
  | cons d l ih =>
    rw [List.cons_append, runsByAux_cons, runsByAux_cons]
    by_cases hd : isWS d
    · simp only [hd, Bool.not_true, Bool.false_eq_true, if_false]
      by_cases hacc : acc.isEmpty
      · rw [if_pos hacc, if_pos hacc, ih]
      · rw [if_neg hacc, if_neg hacc, ih]
    · simp only [hd, Bool.not_false, if_true]
      rw [ih]

theorem words_append_all_ws (l t : Str) (h : ∀ c ∈ t, isWS c = true) :
    words (l ++ t) = words l :=
  runsByAux_append_all_ws l t [] h

theorem words_strip (s : Str) : words (pyStrip s) = words s := by
  have h1 : words (s.dropWhile isWS) = words s := runsByAux_dropWhile_ws s
  set d := s.dropWhile isWS with hd
  have hdecomp : pyStrip s ++ (d.reverse.takeWhile isWS).reverse = d := by
    unfold pyStrip
    rw [← hd, ← List.reverse_append, List.takeWhile_append_dropWhile,
      List.reverse_reverse]
  have hws : ∀ c ∈ (d.reverse.takeWhile isWS).reverse, isWS c = true := by
    intro c hc
    rw [List.mem_reverse] at hc
    exact List.mem_takeWhile_imp hc
  calc words (pyStrip s)
      = words (pyStrip s ++ (d.reverse.takeWhile isWS).reverse) :=
        (words_append_all_ws _ _ hws).symm
    _ = words d := by rw [hdecomp]
    _ = words s := h1

theorem runsByAux_all_p {p : Char → Bool} {w : Str} (acc : Str)
    (hw : w ≠ []) (h : ∀ c ∈ w, p c = true) :
    runsByAux p w acc = [acc.reverse ++ w] := by
  induction w generalizing acc with
  | nil => exact absurd rfl hw
  | cons c t ih =>
    have hc : p c = true := h c (List.mem_cons_self _ _)
    rw [runsByAux_cons, if_pos hc]
    rcases t with _ | ⟨d, t⟩
    · rw [runsByAux_nil]
      simp
    · rw [ih (c :: acc) (by simp)
        (fun x hx => h x (List.mem_cons_of_mem _ hx))]
      simp

theorem words_single_word (w : Str) (hw : w ≠ [])
    (h : ∀ c ∈ w, isWS c = false) : words w = [w] := by
  unfold words runsBy
  rw [runsByAux_all_p [] hw (fun c hc => by simp [h c hc])]
  rfl

theorem words_joinWords (ws : List Str)
    (h : ∀ w ∈ ws, w ≠ [] ∧ ∀ c ∈ w, isWS c = false) :
    words (joinWords ws) = ws := by
  induction ws with
  | nil => rfl
  | cons w rest ih =>
    rcases rest with _ | ⟨w2, rest⟩
    · show words w = [w]
      exact words_single_word w (h w (List.mem_cons_self _ _)).1
        (h w (List.mem_cons_self _ _)).2
    · show words (w ++ ' ' :: joinWords (w2 :: rest)) = w :: w2 :: rest
      rw [words_append_ws _ _ (by decide),
        words_single_word w (h w (List.mem_cons_self _ _)).1
          (h w (List.mem_cons_self _ _)).2,
        ih (fun x hx => h x (List.mem_cons_of_mem _ hx))]
      rfl

theorem mem_runsByAux {p : Char → Bool} {w : Str} :
    ∀ {s acc : Str}, w ∈ runsByAux p s acc → (∀ c ∈ acc, p c = true) →
      w ≠ [] ∧ ∀ c ∈ w, p c = true := by
  intro s
  induction s with
  | nil =>
    intro acc hw hacc
    rw [runsByAux_nil] at hw
    by_cases h0 : acc.isEmpty
    · rw [if_pos h0] at hw
      cases hw
    · rw [if_neg h0] at hw
      rcases List.mem_singleton.mp hw with rfl
      refine ⟨by simpa using h0, ?_⟩
      intro c hc
      exact hacc c (List.mem_reverse.mp hc)
  | cons d t ih =>
    intro acc hw hacc
    rw [runsByAux_cons] at hw
    by_cases hd : p d
    · rw [if_pos hd] at hw
      refine ih hw ?_
      intro c hc
      rcases List.mem_cons.mp hc with rfl | hc
      · exact hd
      · exact hacc c hc
    · rw [if_neg hd] at hw
      by_cases hacc0 : acc.isEmpty
      · rw [if_pos hacc0] at hw
        exact ih hw (by intro c hc; cases hc)
      · rw [if_neg hacc0] at hw
        rcases List.mem_cons.mp hw with rfl | hw
        · refine ⟨by simpa using hacc0, ?_⟩
          intro c hc
          exact hacc c (List.mem_reverse.mp hc)
        · exact ih hw (by intro c hc; cases hc)

theorem mem_words {w s : Str} (h : w ∈ words s) :
    w ≠ [] ∧ ∀ c ∈ w, isWS c = false := by
  have := @mem_runsByAux (fun c => !isWS c) w s [] h (by intro c hc; cases hc)
  refine ⟨this.1, ?_⟩
  intro c hc
  have := this.2 c hc
  simpa using this

theorem words_getOverlapText (overlap : Nat) (cur : Str) :
    words (getOverlapText overlap cur) =
      if (words cur).length ≤ overlap then words cur
      else lastWords overlap (words cur) := by
  unfold getOverlapText
  by_cases h : (words cur).length ≤ overlap
  · rw [if_pos h, if_pos h]
  · rw [if_neg h, if_neg h]
    refine words_joinWords _ ?_
    intro w hw
    have hmem : w ∈ words cur := by
      unfold lastWords at hw
      by_cases h0 : overlap = 0
      · rw [if_pos h0] at hw; exact hw
      · rw [if_neg h0] at hw; exact List.mem_of_mem_drop hw
    exact mem_words hmem


/-!
### Chunker theorems
-/

theorem wordCount_append_space (a b : Str) :
    wordCountTokens (a ++ ' ' :: b) = wordCountTokens a + wordCountTokens b := by
  unfold wordCountTokens
  rw [words_append_ws a b (by decide), List.length_append]

theorem wordCount_strip (s : Str) :
    wordCountTokens (pyStrip s) = wordCountTokens s := by
  unfold wordCountTokens
  rw [words_strip]

theorem words_empty_of_isEmpty {s : Str} (h : s.isEmpty) : words s = [] := by
  rcases s with _ | ⟨c, t⟩
  · rfl
  · simp at h

/-- The first chunk a run of the accumulation loop emits extends the words
of the incoming buffer. -/
theorem createChunksAux_first_words (ct : Str → Nat) (size overlap : Nat) :
    ∀ (L : List Str) (cur : Str) (tok : Nat) (c : Str) (cs : List Str),
      createChunksAux ct size overlap L cur tok = c :: cs →
      ∃ ext, words c = words cur ++ ext := by
  intro L
  induction L with
  | nil =>
    intro cur tok c cs h
    unfold createChunksAux at h
    by_cases hne : (pyStrip cur).isEmpty
    · rw [hne] at h
      simp at h
    · have hne' : (!(pyStrip cur).isEmpty) = true := by simp [hne]
      rw [hne'] at h
      simp only [if_true] at h
      injection h with h1 _
      subst h1
      exact ⟨[], by rw [words_strip, List.append_nil]⟩
  | cons s rest ih =>
    intro cur tok c cs h
    unfold createChunksAux at h
    by_cases hflush : (decide (tok + ct s > size) && !cur.isEmpty) = true
    · rw [hflush] at h
      simp only [if_true] at h
      injection h with h1 _
      subst h1
      exact ⟨[], by rw [words_strip, List.append_nil]⟩
    · have hflush' : (decide (tok + ct s > size) && !cur.isEmpty) = false := by
        simpa using hflush
      rw [hflush'] at h
      simp only [Bool.false_eq_true, if_false] at h
      by_cases hcur : cur.isEmpty
      · rw [if_pos hcur] at h
        rcases ih _ _ _ _ h with ⟨ext, hext⟩
        refine ⟨words s ++ ext, ?_⟩
        rw [hext, words_empty_of_isEmpty hcur]
        rfl
      · rw [if_neg hcur] at h
        rcases ih _ _ _ _ h with ⟨ext, hext⟩
        refine ⟨words s ++ ext, ?_⟩
        rw [hext, words_append_ws cur s (by decide), List.append_assoc]

/-- Two consecutive chunks emitted by the accumulation loop satisfy the
overlap-seed property. -/
theorem createChunksAux_consecutive (ct : Str → Nat) (size overlap : Nat) :
    ∀ (L : List Str) (cur : Str) (tok : Nat) (i : Nat) (c1 c2 : Str),
      (createChunksAux ct size overlap L cur tok).get? i = some c1 →
      (createChunksAux ct size overlap L cur tok).get? (i + 1) = some c2 →
      (words c2).take (seedWords overlap (words c1)).length =
        seedWords overlap (words c1) := by
  intro L
  induction L with
  | nil =>
    intro cur tok i c1 c2 h1 h2
    exfalso
    have hlen : (createChunksAux ct size overlap [] cur tok).length ≤ 1 := by
      unfold createChunksAux
      by_cases hne : (pyStrip cur).isEmpty <;> simp [hne]
    have := (List.get?_eq_some.mp h2).1
    omega
  | cons s rest ih =>
    intro cur tok i c1 c2 h1 h2
    unfold createChunksAux at h1 h2
    by_cases hflush : (decide (tok + ct s > size) && !cur.isEmpty) = true
    · rw [hflush] at h1 h2
      simp only [if_true] at h1 h2
      rcases i with _ | j
      · -- c1 is the freshly flushed chunk, c2 the first chunk of the rest
        simp only [List.get?_cons_zero] at h1
        injection h1 with h1
        subst h1
        simp only [List.get?_cons_succ] at h2
        set newCur := getOverlapText overlap cur ++ ' ' :: s with hnew
        rcases hrec : createChunksAux ct size overlap rest newCur (ct newCur) with
          _ | ⟨d, ds⟩
        · rw [hrec] at h2
          simp at h2
        · rw [hrec] at h2
          rcases createChunksAux_first_words ct size overlap rest newCur
            (ct newCur) d ds hrec with ⟨ext, hext⟩
          have hd : c2 = d := by
            rcases (List.get?_eq_some.mp h2) with ⟨hlt, hget⟩
            simpa using hget.symm
          subst hd
          have hwords2 : words c2 =
              words (getOverlapText overlap cur) ++ (words s ++ ext) := by
            rw [hext, hnew, words_append_ws _ s (by decide), List.append_assoc]
          rw [words_strip] at *
          -- compare the code's seed with the claim's seed
          rw [words_getOverlapText] at hwords2
          by_cases hle : (words cur).length ≤ overlap
          · rw [if_pos hle] at hwords2
            have hseed : seedWords overlap (words cur) = words cur := by
              unfold seedWords
              rw [if_pos hle]
            rw [hseed, hwords2, List.take_left]
          · rw [if_neg hle] at hwords2
            by_cases hov : overlap = 0
            · have hseed : seedWords overlap (words cur) = [] := by
                unfold seedWords
                rw [if_neg hle, hov, Nat.sub_zero, List.drop_length]
              rw [hseed]
              rfl
            · have hlast : lastWords overlap (words cur) =
                  (words cur).drop ((words cur).length - overlap) := by
                unfold lastWords
                rw [if_neg hov]
              have hseed : seedWords overlap (words cur) =
                  (words cur).drop ((words cur).length - overlap) := by
                unfold seedWords
                rw [if_neg hle]
              rw [hseed, hwords2, hlast, List.take_left]
      · simp only [List.get?_cons_succ] at h1 h2
        exact ih _ _ j c1 c2 h1 h2
    · have hflush' : (decide (tok + ct s > size) && !cur.isEmpty) = false := by
        simpa using hflush
      rw [hflush'] at h1 h2
      simp only [Bool.false_eq_true, if_false] at h1 h2
      exact ih _ _ i c1 c2 h1 h2

/-- C4: for any tokenizer, chunk size and overlap, consecutive chunks of
the bounded-split path begin with the seed region: the whole previous
chunk's words when they number at most `chunk_overlap`, else its last
`chunk_overlap` words. -/
theorem chunk_overlap_spec (countTokens : Str → Nat)
    (chunkSize chunkOverlap : Nat) (text : Str) (i : Nat) (c1 c2 : Str)
    (h1 : (createChunkTexts countTokens chunkSize chunkOverlap text).get? i =
      some c1)
    (h2 : (createChunkTexts countTokens chunkSize chunkOverlap text).get?
      (i + 1) = some c2) :
    (words c2).take (seedWords chunkOverlap (words c1)).length =
      seedWords chunkOverlap (words c1) :=
  createChunksAux_consecutive countTokens chunkSize chunkOverlap
    (splitBySentences text) [] 0 i c1 c2 h1 h2

/-- Concrete instantiation of `chunk_overlap_spec`: with size 10 and
overlap 2 the second chunk of the three-sentence text starts with the last
two words of the first chunk. -/
theorem chunk_overlap_spec_witness :
    (words (("six seven. eight nine ten eleven twelve. thirteen fourteen.").data)).take
        (seedWords 2 (words (("one two three four five six seven.").data))).length =
      seedWords 2 (words (("one two three four five six seven.").data)) :=
  chunk_overlap_spec wordCountTokens 10 2
    ("one two three four five six seven. eight nine ten eleven twelve. thirteen fourteen.".data)
    0 _ _ (by decide) (by decide)


theorem le_foldr_max (f : Str → Nat) (l : List Str) {s : Str} (h : s ∈ l) :
    f s ≤ l.foldr (fun x m => max (f x) m) 0 := by
  induction l with
  | nil => cases h
  | cons x xs ih =>
    rcases List.mem_cons.mp h with rfl | h
    · exact le_max_left _ _
    · exact le_trans (ih h) (le_max_right _ _)

theorem foldr_max_attained (f : Str → Nat) (l : List Str) (h : l ≠ []) :
    ∃ s ∈ l, f s = l.foldr (fun x m => max (f x) m) 0 := by
  induction l with
  | nil => exact absurd rfl h
  | cons x xs ih =>
    rcases xs with _ | ⟨y, ys⟩
    · exact ⟨x, List.mem_cons_self _ _, by simp⟩
    · rcases ih (by simp) with ⟨s, hs, hval⟩
      by_cases hle :
          (y :: ys).foldr (fun x m => max (f x) m) 0 ≤ f x
      · refine ⟨x, List.mem_cons_self _ _, ?_⟩
        show f x = max (f x) _
        omega
      · refine ⟨s, List.mem_cons_of_mem _ hs, ?_⟩
        show f s = max (f x) _
        omega

theorem wordCount_overlap_le (overlap : Nat) (cur : Str) (hov : 0 < overlap) :
    wordCountTokens (getOverlapText overlap cur) ≤ overlap := by
  unfold wordCountTokens
  rw [words_getOverlapText]
  by_cases hle : (words cur).length ≤ overlap
  · rw [if_pos hle]
    exact hle
  · rw [if_neg hle]
    unfold lastWords
    rw [if_neg (by omega)]
    rw [List.length_drop]
    omega

/-- Invariant of the accumulation loop under the word-count tokenizer:
with a positive overlap, the tracked token count is the buffer's word
count, and the buffer (hence every flushed chunk) stays below
`max chunk_size (chunk_overlap + M)` where `M` bounds the sentences. -/
theorem createChunksAux_wc_bound (size overlap M : Nat) (hov : 0 < overlap) :
    ∀ (L : List Str) (cur : Str) (tok : Nat),
      tok = wordCountTokens cur →
      wordCountTokens cur ≤ max size (overlap + M) →
      (∀ s ∈ L, wordCountTokens s ≤ M) →
      ∀ c ∈ createChunksAux wordCountTokens size overlap L cur tok,
        wordCountTokens c ≤ max size (overlap + M) := by
  intro L
  induction L with
  | nil =>
    intro cur tok htok hcur hL c hc
    unfold createChunksAux at hc
    by_cases hne : (pyStrip cur).isEmpty
    · rw [hne] at hc
      simp at hc
    · have hne' : (!(pyStrip cur).isEmpty) = true := by simp [hne]
      rw [hne'] at hc
      simp only [if_true] at hc
      rcases List.mem_singleton.mp hc with rfl
      rw [wordCount_strip]
      exact hcur
  | cons s rest ih =>
    intro cur tok htok hcur hL c hc
    have hsM : wordCountTokens s ≤ M := hL s (List.mem_cons_self _ _)
    have hLrest : ∀ x ∈ rest, wordCountTokens x ≤ M :=
      fun x hx => hL x (List.mem_cons_of_mem _ hx)
    unfold createChunksAux at hc
    by_cases hflush :
        (decide (tok + wordCountTokens s > size) && !cur.isEmpty) = true
    · rw [hflush] at hc
      simp only [if_true] at hc
      rcases List.mem_cons.mp hc with rfl | hc
      · rw [wordCount_strip]
        exact hcur
      · refine ih _ _ rfl ?_ hLrest c hc
        rw [wordCount_append_space]
        have h1 := wordCount_overlap_le overlap cur hov
        have h2 : overlap + M ≤ max size (overlap + M) := le_max_right _ _
        omega
    · have hflush' :
          (decide (tok + wordCountTokens s > size) && !cur.isEmpty) = false := by
        simpa using hflush
      rw [hflush'] at hc
      simp only [Bool.false_eq_true, if_false] at hc
      rcases Bool.and_eq_false_iff.mp hflush' with hsize | hcur0
      · have hsize' : tok + wordCountTokens s ≤ size := by
          have := of_decide_eq_false hsize
          omega
        by_cases hcur1 : cur.isEmpty
        · rw [if_pos hcur1] at hc
          have htok0 : tok = 0 := by
            rw [htok]
            unfold wordCountTokens
            rw [words_empty_of_isEmpty hcur1]
            rfl
          refine ih _ _ (by omega) ?_ hLrest c hc
          calc wordCountTokens s ≤ M := hsM
            _ ≤ overlap + M := by omega
            _ ≤ max size (overlap + M) := le_max_right _ _
        · rw [if_neg hcur1] at hc
          have hw : wordCountTokens (cur ++ ' ' :: s) =
              tok + wordCountTokens s := by
            rw [wordCount_append_space, htok]
          refine ih _ _ hw.symm ?_ hLrest c hc
          rw [hw]
          exact le_trans hsize' (le_max_left _ _)
      · have hcur1 : cur.isEmpty := by
          rcases cur with _ | _
          · rfl
          · simp at hcur0
        rw [if_pos hcur1] at hc
        have htok0 : tok = 0 := by
          rw [htok]
          unfold wordCountTokens
          rw [words_empty_of_isEmpty hcur1]
          rfl
        refine ih _ _ (by omega) ?_ hLrest c hc
        calc wordCountTokens s ≤ M := hsM
          _ ≤ overlap + M := by omega
          _ ≤ max size (overlap + M) := le_max_right _ _

/-- C3 (amended): under the word-count tokenizer and a positive configured
overlap, every chunk of the bounded-split path has at most `chunk_size`
tokens UNLESS some single sentence together with the `chunk_overlap`-word
overlap seed exceeds `chunk_size`, in which case the chunk is still
bounded by `chunk_overlap` plus that sentence's token count. -/
theorem chunkSize_bound (chunkSize chunkOverlap : Nat)
    (hov : 0 < chunkOverlap) (text : Str) :
    ∀ c ∈ createChunkTexts wordCountTokens chunkSize chunkOverlap text,
      wordCountTokens c ≤ chunkSize ∨
      ∃ s ∈ splitBySentences text,
        chunkSize < chunkOverlap + wordCountTokens s ∧
        wordCountTokens c ≤ chunkOverlap + wordCountTokens s := by
  intro c hc
  set M := maxSentenceTokens wordCountTokens text with hM
  have hbound : wordCountTokens c ≤ max chunkSize (chunkOverlap + M) :=
    createChunksAux_wc_bound chunkSize chunkOverlap M hov
      (splitBySentences text) [] 0 rfl (Nat.zero_le _)
      (fun s hs => le_foldr_max wordCountTokens _ hs) c hc
  rcases le_or_lt (wordCountTokens c) chunkSize with h | h
  · exact Or.inl h
  · right
    have hsent_ne : splitBySentences text ≠ [] := by
      intro h0
      rw [createChunkTexts, h0] at hc
      have hnil : createChunksAux wordCountTokens chunkSize chunkOverlap
          [] [] 0 = [] := rfl
      rw [hnil] at hc
      cases hc
    rcases foldr_max_attained wordCountTokens (splitBySentences text)
      hsent_ne with ⟨s, hs, hval⟩
    have hvalM : wordCountTokens s = M := by
      rw [hM, maxSentenceTokens]
      exact hval
    have h2 : wordCountTokens c ≤ chunkSize ∨
        wordCountTokens c ≤ chunkOverlap + M := le_max_iff.mp hbound
    have h3 : wordCountTokens c ≤ chunkOverlap + M := by
      rcases h2 with h2 | h2
      · omega
      · exact h2
    exact ⟨s, hs, by omega, by omega⟩


/-- C3 counterexample: with chunk size 10 and overlap 8, over three
six-word sentences every sentence is within the chunk size, but the second
chunk (overlap seed plus second sentence) has 12 tokens. -/
theorem chunkSize_counterexample :
    (∀ s ∈ splitBySentences overflowText, wordCountTokens s ≤ 10) ∧
    (createChunkTexts wordCountTokens 10 8 overflowText).any
      (fun c => decide (10 < wordCountTokens c)) = true := by
  constructor
  · decide
  · decide

/-- Concrete instantiation of `chunkSize_bound` at the oversized second
chunk of `overflowText`. -/
theorem chunkSize_bound_witness :
    wordCountTokens (("a b c d e f. g h i j k l.").data) ≤ 10 ∨
    ∃ s ∈ splitBySentences overflowText,
      10 < 8 + wordCountTokens s ∧
      wordCountTokens (("a b c d e f. g h i j k l.").data) ≤
        8 + wordCountTokens s :=
  chunkSize_bound 10 8 (by norm_num) overflowText
    (("a b c d e f. g h i j k l.").data) (by decide)


/-- Concrete instantiation of the boost characterisation of
`searchWithRerankingPost_spec` at the age-zero record. -/
theorem searchWithRerankingPost_spec_witness :
    (boostResult ageZeroEntities ageZeroResult).similarity_score =
      min 1 (ageZeroResult.similarity_score +
        ((if procMentioned ageZeroEntities
            (lower ageZeroResult.chunk.chunk_text) then (1 : ℚ)/10 else 0) +
         (if locationMentioned ageZeroEntities
            (lower ageZeroResult.chunk.chunk_text) then (1 : ℚ)/20 else 0) +
         (if ageMentioned ageZeroEntities
            (lower ageZeroResult.chunk.chunk_text) then (1 : ℚ)/20 else 0) +
         (if durationMentioned ageZeroEntities
            (lower ageZeroResult.chunk.chunk_text) then (1 : ℚ)/20 else 0))) :=
  (searchWithRerankingPost_spec [ageZeroResult] ageZeroEntities 1).2.2.2
    ageZeroResult (List.mem_singleton_self _)

end LLMBaja
